import Mathlib

/-!
Verification of the signal-generation engine of the Summer_of_Quant_Project
repository.  The four strategy variants (`main3.py`, `main4.py`,
`Strategy_2.py`, `main5.py`) are embedded as pure per-bar step functions
over an explicit position state, threaded through the bar sequence by a
shared runner that mirrors the `for i in range(start_idx, len(data))` loops
of the source.  Python floats are modelled as rationals; a NaN cell of an
indicator column is modelled as `none`.
-/

namespace SoQ

/-- One OHLCV bar, a row of the raw input dataframe. -/
structure Bar where
  open_ : ℚ
  high : ℚ
  low : ℚ
  close : ℚ
  volume : ℚ
  deriving DecidableEq, Repr

/-- A row of the indicator-augmented dataframe handed to `strat`: the raw
columns plus the indicator columns the variants read.  An indicator value is
`none` where the dataframe holds NaN; raw OHLCV columns are never NaN. -/
structure Frame where
  open_ : ℚ
  close : ℚ
  volume : ℚ
  atr : Option ℚ := none
  ema : Option ℚ := none
  sma : Option ℚ := none
  rsi : Option ℚ := none
  macd : Option ℚ := none
  macd_signal : Option ℚ := none
  deriving DecidableEq, Repr

/-- The mutable loop state shared by every variant: `position`
(0 = no position, 1 = long, -1 = short), `trailing_stop`, and the
consecutive adverse close counter `num_wrong`. -/
structure PosState where
  position : Int
  trailing_stop : ℚ
  num_wrong : Nat
  deriving DecidableEq, Repr

/-- The `trade_type` labels written into the output dataframe. -/
inductive TradeType where
  | HOLD
  | LONG
  | SHORT
  | CLOSE
  | REVERSE_LONG_TO_SHORT
  | REVERSE_SHORT_TO_LONG
  deriving DecidableEq, Repr

/-- One output row: the `signals` and `trade_type` columns at one index. -/
structure SignalRecord where
  signals : Int
  trade_type : TradeType
  deriving DecidableEq, Repr

/-- The row value every index starts with (`data['signals'] = 0`,
`data['trade_type'] = "HOLD"`). -/
def holdRec : SignalRecord := ⟨0, .HOLD⟩

/-- The state every walk starts with: flat, stop 0.0, counter 0. -/
def initState : PosState := ⟨0, 0, 0⟩

/-- The four strategy variants of the repository. -/
inductive Variant where
  | m3
  | m4
  | s2
  | m5
  deriving DecidableEq, Repr

/-- The union of the keyword parameters of the four `strat` functions. -/
structure Config where
  atr_length : Nat
  ema_length : Nat
  sma_length : Nat
  rsi_length : Nat
  macd_fast : Nat
  macd_slow : Nat
  macd_siglen : Nat
  volume_lookback : Nat
  num_wrong_limit : Nat
  trailing_stop_multiplier : ℚ
  rsi_entry_threshold_long : ℚ
  rsi_entry_threshold_short : ℚ
  deriving DecidableEq, Repr

/-- Arithmetic mean of a list of rationals (pandas `Series.mean`). -/
def sampleMean (xs : List ℚ) : ℚ := xs.sum / xs.length

/-- Sample variance with ddof = 1, the square of pandas `Series.std`.
For a window of length at most one the rational division by zero returns 0,
which makes the spike test below false, exactly as the NaN comparison does
in Python. -/
def sampleVar (xs : List ℚ) : ℚ :=
  (xs.map (fun x => (x - sampleMean xs) ^ 2)).sum / ((xs.length : ℚ) - 1)

/-- The volume spike test `vol > vol_window.mean() + 1.5 * vol_window.std()`
of the source, written algebraically over ℚ: since the standard deviation is
the square root of `sampleVar`, the test holds exactly when the excess over
the mean is positive and its square exceeds `(3/2)^2` times the variance
(proved against the real-number form in the C8 theorem below). -/
def spikeTest (w : List ℚ) (v : ℚ) : Bool :=
  decide (0 < v - sampleMean w) &&
    decide ((9 : ℚ) / 4 * sampleVar w < (v - sampleMean w) ^ 2)

/-- Row lookup in the indicator dataframe (a missing index reads as the
all-zero row; the loops only read indices inside the frame). -/
def frameAt (fs : List Frame) (k : Nat) : Frame :=
  fs.getD k { open_ := 0, close := 0, volume := 0 }

/-- Bar lookup in the raw dataframe. -/
def barAt (bs : List Bar) (k : Nat) : Bar := bs.getD k ⟨0, 0, 0, 0, 0⟩

/-- The cached window `data.loc[i - volume_lookback : i, 'volume']`.  The
pandas label slice is inclusive at both ends, so it holds the `L + 1`
volumes at indices `i - L, ..., i` — including bar `i` itself. -/
def volWindow (L : Nat) (fs : List Frame) (i : Nat) : List ℚ :=
  (List.range (L + 1)).map (fun t => (frameAt fs (i - L + t)).volume)

/-- The volume spike predicate evaluated by `main3.strat` and `main4.strat`
at row `i`. -/
def volumeSpikeAt (L : Nat) (fs : List Frame) (i : Nat) : Bool :=
  spikeTest (volWindow L fs i) ((frameAt fs i).volume)

/-- Python float `<` where either side may be NaN (modelled `none`): any
comparison against NaN is false. -/
def ltOpt : Option ℚ → Option ℚ → Bool
  | some a, some b => decide (a < b)
  | _, _ => false

/-- The row values cached at the top of the `main3.strat` loop body. -/
structure M3Read where
  vol : ℚ
  vol_window : List ℚ
  close : ℚ
  open_ : ℚ
  atr : Option ℚ
  prev_close : ℚ
  deriving DecidableEq, Repr

/-- Reads of `main3.strat` at row `i`: the cached row values plus the
`data.loc[i - 1, 'close']` read inside the position-management branches. -/
def m3read (L : Nat) (fs : List Frame) (i : Nat) : M3Read :=
  { vol := (frameAt fs i).volume
    vol_window := volWindow L fs i
    close := (frameAt fs i).close
    open_ := (frameAt fs i).open_
    atr := (frameAt fs i).atr
    prev_close := (frameAt fs (i - 1)).close }

/-- The row values cached by `main4.strat` (those of main3 plus RSI). -/
structure M4Read where
  vol : ℚ
  vol_window : List ℚ
  close : ℚ
  open_ : ℚ
  atr : Option ℚ
  rsi : Option ℚ
  prev_close : ℚ
  deriving DecidableEq, Repr

/-- Reads of `main4.strat` at row `i`. -/
def m4read (L : Nat) (fs : List Frame) (i : Nat) : M4Read :=
  { vol := (frameAt fs i).volume
    vol_window := volWindow L fs i
    close := (frameAt fs i).close
    open_ := (frameAt fs i).open_
    atr := (frameAt fs i).atr
    rsi := (frameAt fs i).rsi
    prev_close := (frameAt fs (i - 1)).close }

/-- The row values cached by `Strategy_2.strat`. -/
structure S2Read where
  close : ℚ
  open_ : ℚ
  atr : Option ℚ
  ema : Option ℚ
  macd : Option ℚ
  macd_signal : Option ℚ
  prev_macd : Option ℚ
  prev_macd_signal : Option ℚ
  prev_close : ℚ
  deriving DecidableEq, Repr

/-- Reads of `Strategy_2.strat` at row `i`. -/
def s2read (fs : List Frame) (i : Nat) : S2Read :=
  { close := (frameAt fs i).close
    open_ := (frameAt fs i).open_
    atr := (frameAt fs i).atr
    ema := (frameAt fs i).ema
    macd := (frameAt fs i).macd
    macd_signal := (frameAt fs i).macd_signal
    prev_macd := (frameAt fs (i - 1)).macd
    prev_macd_signal := (frameAt fs (i - 1)).macd_signal
    prev_close := (frameAt fs (i - 1)).close }

/-- The row values cached by `main5.strat`. -/
structure M5Read where
  close : ℚ
  open_ : ℚ
  atr : Option ℚ
  rsi : Option ℚ
  sma : Option ℚ
  prev_close : ℚ
  deriving DecidableEq, Repr

/-- Reads of `main5.strat` at row `i`. -/
def m5read (fs : List Frame) (i : Nat) : M5Read :=
  { close := (frameAt fs i).close
    open_ := (frameAt fs i).open_
    atr := (frameAt fs i).atr
    rsi := (frameAt fs i).rsi
    sma := (frameAt fs i).sma
    prev_close := (frameAt fs (i - 1)).close }

/-- One iteration of the `main3.strat` loop body as a pure transition on the
position state, returning the new state and the row written at this index
(rows keep their initialized `0`/`HOLD` when the loop writes nothing). -/
def step3Core (cfg : Config) (r : M3Read) (s : PosState) :
    PosState × SignalRecord :=
  match r.atr with
  | none => (s, holdRec)
  | some atr =>
    let volume_spike := spikeTest r.vol_window r.vol
    if s.position = 0 then
      if volume_spike then
        if r.open_ < r.close then
          (⟨1, r.close - atr * cfg.trailing_stop_multiplier, 0⟩, ⟨1, .LONG⟩)
        else if r.close < r.open_ then
          (⟨-1, r.close + atr * cfg.trailing_stop_multiplier, 0⟩, ⟨-1, .SHORT⟩)
        else (s, holdRec)
      else (s, holdRec)
    else if s.position = 1 then
      let trend_reversal := volume_spike && decide (r.close < r.open_)
      let num_wrong := if r.close ≤ r.prev_close then s.num_wrong + 1 else 0
      if trend_reversal then
        (⟨-1, r.close + atr * cfg.trailing_stop_multiplier, 0⟩,
          ⟨-2, .REVERSE_LONG_TO_SHORT⟩)
      else if cfg.num_wrong_limit ≤ num_wrong then
        (⟨0, s.trailing_stop, 0⟩, ⟨-1, .CLOSE⟩)
      else if r.close < s.trailing_stop then
        (⟨0, s.trailing_stop, 0⟩, ⟨-1, .CLOSE⟩)
      else
        (⟨1, max s.trailing_stop (r.close - atr * cfg.trailing_stop_multiplier),
          num_wrong⟩, holdRec)
    else if s.position = -1 then
      let trend_reversal := volume_spike && decide (r.open_ < r.close)
      let num_wrong := if r.prev_close ≤ r.close then s.num_wrong + 1 else 0
      if trend_reversal then
        (⟨1, r.close - atr * cfg.trailing_stop_multiplier, 0⟩,
          ⟨2, .REVERSE_SHORT_TO_LONG⟩)
      else if cfg.num_wrong_limit ≤ num_wrong then
        (⟨0, s.trailing_stop, 0⟩, ⟨1, .CLOSE⟩)
      else if s.trailing_stop < r.close then
        (⟨0, s.trailing_stop, 0⟩, ⟨1, .CLOSE⟩)
      else
        (⟨-1, min s.trailing_stop (r.close + atr * cfg.trailing_stop_multiplier),
          num_wrong⟩, holdRec)
    else (s, holdRec)

/-- One iteration of the `main4.strat` loop body: main3 plus the RSI
momentum gate on entries and on reversals. -/
def step4Core (cfg : Config) (r : M4Read) (s : PosState) :
    PosState × SignalRecord :=
  match r.atr, r.rsi with
  | some atr, some rsi =>
    let volume_spike := spikeTest r.vol_window r.vol
    if s.position = 0 then
      if volume_spike then
        if r.open_ < r.close ∧ cfg.rsi_entry_threshold_long ≤ rsi then
          (⟨1, r.close - atr * cfg.trailing_stop_multiplier, 0⟩, ⟨1, .LONG⟩)
        else if r.close < r.open_ ∧ rsi ≤ cfg.rsi_entry_threshold_short then
          (⟨-1, r.close + atr * cfg.trailing_stop_multiplier, 0⟩, ⟨-1, .SHORT⟩)
        else (s, holdRec)
      else (s, holdRec)
    else if s.position = 1 then
      let trend_reversal := volume_spike && decide (r.close < r.open_)
      let num_wrong := if r.close ≤ r.prev_close then s.num_wrong + 1 else 0
      if trend_reversal ∧ rsi ≤ cfg.rsi_entry_threshold_short then
        (⟨-1, r.close + atr * cfg.trailing_stop_multiplier, 0⟩,
          ⟨-2, .REVERSE_LONG_TO_SHORT⟩)
      else if cfg.num_wrong_limit ≤ num_wrong then
        (⟨0, s.trailing_stop, 0⟩, ⟨-1, .CLOSE⟩)
      else if r.close < s.trailing_stop then
        (⟨0, s.trailing_stop, 0⟩, ⟨-1, .CLOSE⟩)
      else
        (⟨1, max s.trailing_stop (r.close - atr * cfg.trailing_stop_multiplier),
          num_wrong⟩, holdRec)
    else if s.position = -1 then
      let trend_reversal := volume_spike && decide (r.open_ < r.close)
      let num_wrong := if r.prev_close ≤ r.close then s.num_wrong + 1 else 0
      if trend_reversal ∧ cfg.rsi_entry_threshold_long ≤ rsi then
        (⟨1, r.close - atr * cfg.trailing_stop_multiplier, 0⟩,
          ⟨2, .REVERSE_SHORT_TO_LONG⟩)
      else if cfg.num_wrong_limit ≤ num_wrong then
        (⟨0, s.trailing_stop, 0⟩, ⟨1, .CLOSE⟩)
      else if s.trailing_stop < r.close then
        (⟨0, s.trailing_stop, 0⟩, ⟨1, .CLOSE⟩)
      else
        (⟨-1, min s.trailing_stop (r.close + atr * cfg.trailing_stop_multiplier),
          num_wrong⟩, holdRec)
    else (s, holdRec)
  | _, _ => (s, holdRec)

/-- One iteration of the `Strategy_2.strat` loop body: EMA trend filter,
MACD crossover momentum, ATR trailing stop.  The previous-row MACD values
are not NaN-checked by the source; a comparison against NaN is false. -/
def step2Core (cfg : Config) (r : S2Read) (s : PosState) :
    PosState × SignalRecord :=
  match r.atr, r.macd, r.macd_signal, r.ema with
  | some atr, some macd, some macd_signal, some ema =>
    let macd_cross_up := ltOpt r.prev_macd r.prev_macd_signal &&
      decide (macd_signal < macd)
    let macd_cross_down := ltOpt r.prev_macd_signal r.prev_macd &&
      decide (macd < macd_signal)
    if s.position = 0 then
      if ema < r.close ∧ macd_cross_up ∧ r.open_ < r.close then
        (⟨1, r.close - atr * cfg.trailing_stop_multiplier, 0⟩, ⟨1, .LONG⟩)
      else if r.close < ema ∧ macd_cross_down ∧ r.close < r.open_ then
        (⟨-1, r.close + atr * cfg.trailing_stop_multiplier, 0⟩, ⟨-1, .SHORT⟩)
      else (s, holdRec)
    else if s.position = 1 then
      let num_wrong := if r.close ≤ r.prev_close then s.num_wrong + 1 else 0
      let exit_signal := macd_cross_down || decide (r.close < ema)
      if exit_signal ∨ cfg.num_wrong_limit ≤ num_wrong ∨
          r.close < s.trailing_stop then
        (⟨0, s.trailing_stop, 0⟩, ⟨-1, .CLOSE⟩)
      else
        (⟨1, max s.trailing_stop (r.close - atr * cfg.trailing_stop_multiplier),
          num_wrong⟩, holdRec)
    else if s.position = -1 then
      let num_wrong := if r.prev_close ≤ r.close then s.num_wrong + 1 else 0
      let exit_signal := macd_cross_up || decide (ema < r.close)
      if exit_signal ∨ cfg.num_wrong_limit ≤ num_wrong ∨
          s.trailing_stop < r.close then
        (⟨0, s.trailing_stop, 0⟩, ⟨1, .CLOSE⟩)
      else
        (⟨-1, min s.trailing_stop (r.close + atr * cfg.trailing_stop_multiplier),
          num_wrong⟩, holdRec)
    else (s, holdRec)
  | _, _, _, _ => (s, holdRec)

/-- One iteration of the `main5.strat` loop body: SMA trend filter, RSI
momentum thresholds, ATR trailing stop. -/
def step5Core (cfg : Config) (r : M5Read) (s : PosState) :
    PosState × SignalRecord :=
  match r.atr, r.rsi, r.sma with
  | some atr, some rsi, some sma =>
    if s.position = 0 then
      if sma < r.close ∧ cfg.rsi_entry_threshold_long ≤ rsi ∧
          r.open_ < r.close then
        (⟨1, r.close - atr * cfg.trailing_stop_multiplier, 0⟩, ⟨1, .LONG⟩)
      else if r.close < sma ∧ rsi ≤ cfg.rsi_entry_threshold_short ∧
          r.close < r.open_ then
        (⟨-1, r.close + atr * cfg.trailing_stop_multiplier, 0⟩, ⟨-1, .SHORT⟩)
      else (s, holdRec)
    else if s.position = 1 then
      let num_wrong := if r.close ≤ r.prev_close then s.num_wrong + 1 else 0
      let exit_signal := rsi < cfg.rsi_entry_threshold_short ∨ r.close < sma
      if exit_signal ∨ cfg.num_wrong_limit ≤ num_wrong ∨
          r.close < s.trailing_stop then
        (⟨0, s.trailing_stop, 0⟩, ⟨-1, .CLOSE⟩)
      else
        (⟨1, max s.trailing_stop (r.close - atr * cfg.trailing_stop_multiplier),
          num_wrong⟩, holdRec)
    else if s.position = -1 then
      let num_wrong := if r.prev_close ≤ r.close then s.num_wrong + 1 else 0
      let exit_signal := cfg.rsi_entry_threshold_long < rsi ∨ sma < r.close
      if exit_signal ∨ cfg.num_wrong_limit ≤ num_wrong ∨
          s.trailing_stop < r.close then
        (⟨0, s.trailing_stop, 0⟩, ⟨1, .CLOSE⟩)
      else
        (⟨-1, min s.trailing_stop (r.close + atr * cfg.trailing_stop_multiplier),
          num_wrong⟩, holdRec)
    else (s, holdRec)
  | _, _, _ => (s, holdRec)

/-- The step of one variant at one row of the indicator dataframe. -/
def stepOf (v : Variant) (cfg : Config) (fs : List Frame) (i : Nat)
    (s : PosState) : PosState × SignalRecord :=
  match v with
  | .m3 => step3Core cfg (m3read cfg.volume_lookback fs i) s
  | .m4 => step4Core cfg (m4read cfg.volume_lookback fs i) s
  | .s2 => step2Core cfg (s2read fs i) s
  | .m5 => step5Core cfg (m5read fs i) s

/-- The first processed index of each variant
(`start_idx` in the sources; Strategy_2 hardcodes 26 for the MACD). -/
def startIdx (v : Variant) (cfg : Config) : Nat :=
  match v with
  | .m3 => max cfg.atr_length cfg.volume_lookback
  | .m4 => max cfg.atr_length cfg.volume_lookback
  | .s2 => max cfg.ema_length (max cfg.atr_length 26)
  | .m5 => max cfg.sma_length cfg.atr_length

/-- The loop `for i in range(i0, i0 + n)`: thread the state through `n`
steps starting at row `i0`, collecting the written rows in order and the
final state. -/
def runCore (step : Nat → PosState → PosState × SignalRecord) :
    Nat → Nat → PosState → PosState × List SignalRecord
  | _, 0, s => (s, [])
  | i, n + 1, s =>
    let p := step i s
    let q := runCore step (i + 1) n p.1
    (q.1, p.2 :: q.2)

/-- The state entering the `n`-th processed row (bar `i0 + n`). -/
def stateAt (step : Nat → PosState → PosState × SignalRecord) (i0 : Nat)
    (s0 : PosState) : Nat → PosState
  | 0 => s0
  | n + 1 => (step (i0 + n) (stateAt step i0 s0 n)).1

/-- A full `strat` pass of one variant over an indicator dataframe: rows
before `start_idx` keep their initialized `0`/`HOLD`, the loop runs from
`start_idx` to the end, and the final loop state is returned alongside the
output rows. -/
def stratRun (v : Variant) (cfg : Config) (fs : List Frame) :
    PosState × List SignalRecord :=
  let st := startIdx v cfg
  let r := runCore (stepOf v cfg fs) st (fs.length - st) initState
  (r.1, List.replicate (min st fs.length) holdRec ++ r.2)

/-- The output row of a `strat` pass at index `i`. -/
def outRow (v : Variant) (cfg : Config) (fs : List Frame) (i : Nat) :
    SignalRecord :=
  (stratRun v cfg fs).2.getD i holdRec

/-- Modelled from the spec: the true range feeding the external
`pandas_ta.atr`; by the Indicator Pipeline contract it reads only bars `i`
and `i - 1`. -/
def trueRange (bs : List Bar) (i : Nat) : ℚ :=
  max ((barAt bs i).high - (barAt bs i).low)
    (max |(barAt bs i).high - (barAt bs (i - 1)).close|
      |(barAt bs i).low - (barAt bs (i - 1)).close|)

/-- Modelled from the spec: Wilder's running average (the smoothing inside
the external library's ATR and RSI), undefined for the first `len` indices
and seeded at index `len` with the plain average of the series values at
indices `1, ..., len`. -/
def rmaOf (len : Nat) (g : Nat → ℚ) : Nat → Option ℚ
  | 0 => none
  | i + 1 =>
    if i + 1 < len then none
    else if i + 1 = len then
      some (((List.range len).map (fun t => g (t + 1))).sum / (len : ℚ))
    else
      (rmaOf len g i).map
        (fun p => (p * ((len : ℚ) - 1) + g (i + 1)) / (len : ℚ))

/-- Modelled from the spec: the ATR column of `process_data`
(external `pandas_ta.atr`), a causal pure function of the bar prefix. -/
def atrVal (len : Nat) (bs : List Bar) (i : Nat) : Option ℚ :=
  rmaOf len (trueRange bs) i

/-- Upward close-to-close move at index `i` (feeds the RSI model). -/
def upMove (bs : List Bar) (i : Nat) : ℚ :=
  max ((barAt bs i).close - (barAt bs (i - 1)).close) 0

/-- Downward close-to-close move at index `i` (feeds the RSI model). -/
def downMove (bs : List Bar) (i : Nat) : ℚ :=
  max ((barAt bs (i - 1)).close - (barAt bs i).close) 0

/-- Modelled from the spec: the RSI column of `process_data` (external
`pandas_ta.rsi`), Wilder-smoothed gains against losses, undefined during
warm-up. -/
def rsiVal (len : Nat) (bs : List Bar) (i : Nat) : Option ℚ :=
  match rmaOf len (upMove bs) i, rmaOf len (downMove bs) i with
  | some u, some d => some (100 * u / (u + d))
  | _, _ => none

/-- The pandas `ewm(span, adjust=False).mean()` of the close column used by
`Strategy_2.process_data`: the standard recursive EMA, defined from index 0
on. -/
def emaVal (span : Nat) (bs : List Bar) : Nat → ℚ
  | 0 => (barAt bs 0).close
  | i + 1 =>
    (2 / ((span : ℚ) + 1)) * (barAt bs (i + 1)).close +
      (1 - 2 / ((span : ℚ) + 1)) * emaVal span bs i

/-- The pandas `rolling(window=n).mean()` of the close column used by
`main5.process_data`: undefined until a full window is available. -/
def smaVal (n : Nat) (bs : List Bar) (i : Nat) : Option ℚ :=
  if i + 1 < n ∨ n = 0 then none
  else
    some ((((List.range n).map
      (fun t => (barAt bs (i + 1 - n + t)).close)).sum) / (n : ℚ))

/-- Difference of fast and slow close EMAs (the MACD line value). -/
def macdDiff (fast slow : Nat) (bs : List Bar) (i : Nat) : ℚ :=
  emaVal fast bs i - emaVal slow bs i

/-- Recursive EMA of the MACD line (the signal line value). -/
def macdSigRaw (fast slow sig : Nat) (bs : List Bar) : Nat → ℚ
  | 0 => macdDiff fast slow bs 0
  | i + 1 =>
    (2 / ((sig : ℚ) + 1)) * macdDiff fast slow bs (i + 1) +
      (1 - 2 / ((sig : ℚ) + 1)) * macdSigRaw fast slow sig bs i

/-- Modelled from the spec: the MACD column of `process_data` (external
`pandas_ta.macd`), undefined during the slow-EMA warm-up. -/
def macdVal (fast slow : Nat) (bs : List Bar) (i : Nat) : Option ℚ :=
  if i + 1 < slow then none else some (macdDiff fast slow bs i)

/-- Modelled from the spec: the MACD signal column of `process_data`
(external `pandas_ta.macd`), undefined during its longer warm-up. -/
def macdSignalVal (fast slow sig : Nat) (bs : List Bar) (i : Nat) :
    Option ℚ :=
  if i + 1 < slow + sig then none else some (macdSigRaw fast slow sig bs i)

/-- The indicator row built by each variant's `process_data` at index `i`
(only the columns that variant adds are populated). -/
def mkFrame (v : Variant) (cfg : Config) (bs : List Bar) (i : Nat) : Frame :=
  match v with
  | .m3 =>
    { open_ := (barAt bs i).open_, close := (barAt bs i).close
      volume := (barAt bs i).volume, atr := atrVal cfg.atr_length bs i }
  | .m4 =>
    { open_ := (barAt bs i).open_, close := (barAt bs i).close
      volume := (barAt bs i).volume, atr := atrVal cfg.atr_length bs i
      rsi := rsiVal cfg.rsi_length bs i }
  | .s2 =>
    { open_ := (barAt bs i).open_, close := (barAt bs i).close
      volume := (barAt bs i).volume, atr := atrVal cfg.atr_length bs i
      ema := some (emaVal cfg.ema_length bs i)
      macd := macdVal cfg.macd_fast cfg.macd_slow bs i
      macd_signal :=
        macdSignalVal cfg.macd_fast cfg.macd_slow cfg.macd_siglen bs i }
  | .m5 =>
    { open_ := (barAt bs i).open_, close := (barAt bs i).close
      volume := (barAt bs i).volume, atr := atrVal cfg.atr_length bs i
      sma := smaVal cfg.sma_length bs i
      rsi := rsiVal cfg.rsi_length bs i }

/-- Each variant's `process_data`: the input bars with that variant's
indicator columns added (same length and order). -/
def pipelineOf (v : Variant) (cfg : Config) (bs : List Bar) : List Frame :=
  (List.range bs.length).map (mkFrame v cfg bs)

/-- `process_data` followed by `strat`, as composed in each variant's
`main`. -/
def engineOut (v : Variant) (cfg : Config) (bs : List Bar) :
    List SignalRecord :=
  (stratRun v cfg (pipelineOf v cfg bs)).2

/-- The loop state entering the `n`-th processed bar of a `strat` pass
(bar `startIdx + n`). -/
def runState (v : Variant) (cfg : Config) (fs : List Frame) (n : Nat) :
    PosState :=
  stateAt (stepOf v cfg fs) (startIdx v cfg) initState n

/-- Python float `≤` where either side may be NaN: false on NaN. -/
def leOpt : Option ℚ → Option ℚ → Bool
  | some a, some b => decide (a ≤ b)
  | _, _ => false

/-- The indicator cells of row `f` that variant `v` NaN-checks before
processing a bar (`pd.isna(...)` guards with `continue`): true when the
variant skips this row. -/
def requiredNaN (v : Variant) (f : Frame) : Bool :=
  match v with
  | .m3 => f.atr.isNone
  | .m4 => f.atr.isNone || f.rsi.isNone
  | .s2 => f.atr.isNone || f.macd.isNone || f.macd_signal.isNone || f.ema.isNone
  | .m5 => f.atr.isNone || f.rsi.isNone || f.sma.isNone

/-- The MACD bearish crossover test of `Strategy_2.strat` at row `k`
(`prev_macd > prev_macd_signal and macd < macd_signal`; NaN compares
false). -/
def crossDownAt (fs : List Frame) (k : Nat) : Bool :=
  ltOpt (frameAt fs (k - 1)).macd_signal (frameAt fs (k - 1)).macd &&
    ltOpt (frameAt fs k).macd (frameAt fs k).macd_signal

/-- The MACD bullish crossover test of `Strategy_2.strat` at row `k`. -/
def crossUpAt (fs : List Frame) (k : Nat) : Bool :=
  ltOpt (frameAt fs (k - 1)).macd (frameAt fs (k - 1)).macd_signal &&
    ltOpt (frameAt fs k).macd_signal (frameAt fs k).macd

/-- Adverse bar for a held long: close at or below the previous close. -/
def adverseLong (fs : List Frame) (k : Nat) : Prop :=
  (frameAt fs k).close ≤ (frameAt fs (k - 1)).close

/-- Adverse bar for a held short: close at or above the previous close. -/
def adverseShort (fs : List Frame) (k : Nat) : Prop :=
  (frameAt fs (k - 1)).close ≤ (frameAt fs k).close

instance decAdverseLong (fs : List Frame) (k : Nat) :
    Decidable (adverseLong fs k) := by
  unfold adverseLong
  infer_instance

instance decAdverseShort (fs : List Frame) (k : Nat) :
    Decidable (adverseShort fs k) := by
  unfold adverseShort
  infer_instance

/-- The condition that preempts the adverse-counter exit in the long branch
of each variant: the reversal trigger for the volume variants, the
`exit_signal` disjunct for the trend variants (both checked before, or
together with, the counter in the source). -/
def longPreempt (v : Variant) (cfg : Config) (fs : List Frame) (k : Nat) :
    Bool :=
  match v with
  | .m3 => volumeSpikeAt cfg.volume_lookback fs k &&
      decide ((frameAt fs k).close < (frameAt fs k).open_)
  | .m4 => (volumeSpikeAt cfg.volume_lookback fs k &&
      decide ((frameAt fs k).close < (frameAt fs k).open_)) &&
      leOpt (frameAt fs k).rsi (some cfg.rsi_entry_threshold_short)
  | .s2 => crossDownAt fs k ||
      ltOpt (some (frameAt fs k).close) (frameAt fs k).ema
  | .m5 => ltOpt (frameAt fs k).rsi (some cfg.rsi_entry_threshold_short) ||
      ltOpt (some (frameAt fs k).close) (frameAt fs k).sma

/-- Mirror of `longPreempt` for the short branch. -/
def shortPreempt (v : Variant) (cfg : Config) (fs : List Frame) (k : Nat) :
    Bool :=
  match v with
  | .m3 => volumeSpikeAt cfg.volume_lookback fs k &&
      decide ((frameAt fs k).open_ < (frameAt fs k).close)
  | .m4 => (volumeSpikeAt cfg.volume_lookback fs k &&
      decide ((frameAt fs k).open_ < (frameAt fs k).close)) &&
      leOpt (some cfg.rsi_entry_threshold_long) (frameAt fs k).rsi
  | .s2 => crossUpAt fs k ||
      ltOpt (frameAt fs k).ema (some (frameAt fs k).close)
  | .m5 => ltOpt (some cfg.rsi_entry_threshold_long) (frameAt fs k).rsi ||
      ltOpt (frameAt fs k).sma (some (frameAt fs k).close)

/-- The `(signals, trade_type)` pairs the engine can write: hold, the two
entries, the two sided closes, and the two reversals. -/
def pairOK (rec : SignalRecord) : Prop :=
  rec = ⟨0, .HOLD⟩ ∨ rec = ⟨1, .LONG⟩ ∨ rec = ⟨-1, .SHORT⟩ ∨
    rec = ⟨-1, .CLOSE⟩ ∨ rec = ⟨1, .CLOSE⟩ ∨
    rec = ⟨-2, .REVERSE_LONG_TO_SHORT⟩ ∨ rec = ⟨2, .REVERSE_SHORT_TO_LONG⟩

/-- The volume-spike predicate as the spec describes it: the window is the
`volume_lookback` bars strictly preceding bar `i`, excluding bar `i`
itself.  Stated for comparison with `volumeSpikeAt`, the predicate the code
computes. -/
def volumeSpikeAt_spec (L : Nat) (fs : List Frame) (i : Nat) : Bool :=
  spikeTest ((List.range L).map (fun t => (frameAt fs (i - L + t)).volume))
    ((frameAt fs i).volume)

/-- The run as the spec describes it: fail with `InsufficientDataError`
when the input is shorter than the warm-up, otherwise the engine's rows.
Stated for comparison with `stratRun`, which never fails. -/
def runChecked_spec (v : Variant) (cfg : Config) (fs : List Frame) :
    Except String (List SignalRecord) :=
  if fs.length < startIdx v cfg then Except.error "InsufficientDataError"
  else Except.ok (stratRun v cfg fs).2

/-! ### Concrete inputs used by witnesses and counterexamples -/

/-- A small configuration exercising every variant with short warm-ups. -/
def cfgW : Config :=
  { atr_length := 1, ema_length := 1, sma_length := 1, rsi_length := 1
    macd_fast := 1, macd_slow := 1, macd_siglen := 1
    volume_lookback := 4, num_wrong_limit := 99
    trailing_stop_multiplier := 2
    rsi_entry_threshold_long := 50, rsi_entry_threshold_short := 50 }

/-- main5-style frame rows: long entry at row 1, hold at row 2. -/
def frMono : List Frame :=
  [{ open_ := 1, close := 1, volume := 1, atr := some 1, rsi := some 50,
      sma := some 1 },
   { open_ := 1, close := 10, volume := 1, atr := some 1, rsi := some 70,
      sma := some 1 },
   { open_ := 1, close := 11, volume := 1, atr := some 1, rsi := some 70,
      sma := some 1 }]

/-- main4-style frame rows: a bullish volume spike opens a long at row 4; a
bearish volume spike with RSI above the short threshold hits at row 5. -/
def frC5 : List Frame :=
  [{ open_ := 1, close := 1, volume := 10, atr := some 1, rsi := some 50 },
   { open_ := 1, close := 1, volume := 10, atr := some 1, rsi := some 50 },
   { open_ := 1, close := 1, volume := 10, atr := some 1, rsi := some 50 },
   { open_ := 1, close := 1, volume := 10, atr := some 1, rsi := some 50 },
   { open_ := 1, close := 2, volume := 100, atr := some 1, rsi := some 60 },
   { open_ := 2, close := 1, volume := 10000, atr := some 1, rsi := some 60 }]

/-- main5-style frame rows: long entry at row 1 (trailing stop 8), RSI
collapse forces a CLOSE at row 2. -/
def frCl : List Frame :=
  [{ open_ := 1, close := 1, volume := 1, atr := some 1, rsi := some 50,
      sma := some 1 },
   { open_ := 1, close := 10, volume := 1, atr := some 1, rsi := some 70,
      sma := some 1 },
   { open_ := 10, close := 9, volume := 1, atr := some 1, rsi := some 10,
      sma := some 1 }]

/-- Volumes 10,10,10,20 then 21: above the spec window's threshold, below
the code window's threshold. -/
def frSpk : List Frame :=
  [{ open_ := 0, close := 0, volume := 10 },
   { open_ := 0, close := 0, volume := 10 },
   { open_ := 0, close := 0, volume := 10 },
   { open_ := 0, close := 0, volume := 20 },
   { open_ := 0, close := 0, volume := 21 }]

/-- Two plain rows: shorter than `cfgW`'s main3 warm-up of 4. -/
def frShort : List Frame :=
  [{ open_ := 1, close := 1, volume := 1 },
   { open_ := 1, close := 1, volume := 1 }]

/-- A NaN-ATR row (as every row is during the ATR warm-up). -/
def frNaN : List Frame :=
  [{ open_ := 1, close := 1, volume := 1 }]

/-- Three raw bars for the causality witness. -/
def barsA : List Bar :=
  [⟨1, 3, 1, 2, 10⟩, ⟨2, 4, 1, 3, 50⟩, ⟨3, 9, 2, 8, 100⟩]

/-- `cfgW` with a volume lookback of 1 (start index 1 for main3). -/
def cfgB : Config := { cfgW with volume_lookback := 1 }

/-- `cfgW` with an adverse-close limit of 2. -/
def cfgC : Config := { cfgW with num_wrong_limit := 2 }

/-! ### Reads below a truncation point agree with reads of the full list -/

theorem frameAt_take (fs : List Frame) (m k : Nat) (h : k < m) :
    frameAt (fs.take m) k = frameAt fs k := by
  unfold frameAt
  rw [List.getD_eq_getElem?_getD, List.getD_eq_getElem?_getD,
    List.getElem?_take, if_pos h]

theorem barAt_take (bs : List Bar) (m k : Nat) (h : k < m) :
    barAt (bs.take m) k = barAt bs k := by
  unfold barAt
  rw [List.getD_eq_getElem?_getD, List.getD_eq_getElem?_getD,
    List.getElem?_take, if_pos h]

theorem volWindow_take (L : Nat) (fs : List Frame) (m i : Nat)
    (hL : L ≤ i) (h : i < m) : volWindow L (fs.take m) i = volWindow L fs i := by
  unfold volWindow
  refine List.map_congr_left (fun t ht => ?_)
  rw [List.mem_range] at ht
  rw [frameAt_take]
  omega

theorem m3read_take (L : Nat) (fs : List Frame) (m i : Nat)
    (hL : L ≤ i) (h : i < m) : m3read L (fs.take m) i = m3read L fs i := by
  unfold m3read
  rw [volWindow_take L fs m i hL h, frameAt_take fs m i h,
    frameAt_take fs m (i - 1) (by omega)]

theorem m4read_take (L : Nat) (fs : List Frame) (m i : Nat)
    (hL : L ≤ i) (h : i < m) : m4read L (fs.take m) i = m4read L fs i := by
  unfold m4read
  rw [volWindow_take L fs m i hL h, frameAt_take fs m i h,
    frameAt_take fs m (i - 1) (by omega)]

theorem s2read_take (fs : List Frame) (m i : Nat) (h : i < m) :
    s2read (fs.take m) i = s2read fs i := by
  unfold s2read
  rw [frameAt_take fs m i h, frameAt_take fs m (i - 1) (by omega)]

theorem m5read_take (fs : List Frame) (m i : Nat) (h : i < m) :
    m5read (fs.take m) i = m5read fs i := by
  unfold m5read
  rw [frameAt_take fs m i h, frameAt_take fs m (i - 1) (by omega)]

/-- Every variant's step at a row below the truncation point reads nothing
beyond it (for the volume variants, provided the window start is in range,
which `startIdx ≥ volume_lookback` guarantees on processed rows). -/
theorem stepOf_take (v : Variant) (cfg : Config) (fs : List Frame)
    (m i : Nat) (s : PosState) (hst : startIdx v cfg ≤ i) (h : i < m) :
    stepOf v cfg (fs.take m) i s = stepOf v cfg fs i s := by
  cases v with
  | m3 =>
    unfold stepOf
    rw [m3read_take cfg.volume_lookback fs m i (le_trans (le_max_right _ _) hst) h]
  | m4 =>
    unfold stepOf
    rw [m4read_take cfg.volume_lookback fs m i (le_trans (le_max_right _ _) hst) h]
  | s2 =>
    unfold stepOf
    rw [s2read_take fs m i h]
  | m5 =>
    unfold stepOf
    rw [m5read_take fs m i h]

/-! ### Structure of the runner -/

theorem runCore_snd_length (step : Nat → PosState → PosState × SignalRecord)
    (n : Nat) : ∀ (i : Nat) (s : PosState),
    (runCore step i n s).2.length = n := by
  induction n with
  | zero => intro i s; rfl
  | succ n ih =>
    intro i s
    show ((runCore step (i + 1) n (step i s).1).2.length + 1) = n + 1
    rw [ih]

theorem runCore_append (step : Nat → PosState → PosState × SignalRecord)
    (a : Nat) : ∀ (b i : Nat) (s : PosState),
    runCore step i (a + b) s =
      ((runCore step (i + a) b (runCore step i a s).1).1,
        (runCore step i a s).2 ++
          (runCore step (i + a) b (runCore step i a s).1).2) := by
  induction a with
  | zero =>
    intro b i s
    simp [runCore]
  | succ a ih =>
    intro b i s
    have hn : a + 1 + b = (a + b) + 1 := by omega
    rw [hn]
    show (_, (step i s).2 :: (runCore step (i + 1) (a + b) (step i s).1).2) = _
    rw [ih b (i + 1) (step i s).1]
    have hi : i + 1 + a = i + (a + 1) := by omega
    rw [hi]
    rfl

/-- The used steps determine the run: two step functions agreeing on the
processed index range produce the same run. -/
theorem runCore_congr (step1 step2 : Nat → PosState → PosState × SignalRecord)
    (n : Nat) : ∀ (i : Nat) (s : PosState),
    (∀ k s', i ≤ k → k < i + n → step1 k s' = step2 k s') →
    runCore step1 i n s = runCore step2 i n s := by
  induction n with
  | zero => intro i s _; rfl
  | succ n ih =>
    intro i s hag
    show (_, (step1 i s).2 :: _) = (_, (step2 i s).2 :: _)
    have h0 : step1 i s = step2 i s := hag i s (le_refl i) (by omega)
    rw [h0, ih (i + 1) (step2 i s).1 (fun k s' hk hk' => hag k s' (by omega) (by omega))]

/-- The first component of the run is the iterated state. -/
theorem runCore_fst (step : Nat → PosState → PosState × SignalRecord)
    (n : Nat) : ∀ (i : Nat) (s : PosState),
    (runCore step i n s).1 = stateAt step i s n := by
  induction n with
  | zero => intro i s; rfl
  | succ n ih =>
    intro i s
    have h := runCore_append step n 1 i s
    rw [show n + 1 = n + 1 from rfl, h]
    show (runCore step (i + n) 1 _).1 = _
    simp only [runCore, ih]
    rfl

/-- Shifting the start index of the iterated state by one step. -/
theorem stateAt_shift (step : Nat → PosState → PosState × SignalRecord)
    (j : Nat) : ∀ (i : Nat) (s : PosState),
    stateAt step i s (j + 1) = stateAt step (i + 1) (step i s).1 j := by
  induction j with
  | zero => intro i s; simp [stateAt]
  | succ j ihj =>
    intro i s
    show (step (i + (j + 1)) (stateAt step i s (j + 1))).1 = _
    rw [ihj i s]
    show _ = (step (i + 1 + j) (stateAt step (i + 1) (step i s).1 j)).1
    have h : i + (j + 1) = i + 1 + j := by omega
    rw [h]

/-- The row emitted at processed offset `j` is the step applied to the
state entering that row. -/
theorem runCore_snd_getD (step : Nat → PosState → PosState × SignalRecord)
    (n : Nat) : ∀ (j i : Nat) (s : PosState), j < n →
    (runCore step i n s).2.getD j holdRec =
      (step (i + j) (stateAt step i s j)).2 := by
  induction n with
  | zero => intro j i s h; omega
  | succ n ih =>
    intro j i s h
    cases j with
    | zero =>
      show ((step i s).2 :: _).getD 0 holdRec = _
      simp [stateAt]
    | succ j =>
      show ((step i s).2 :: (runCore step (i + 1) n (step i s).1).2).getD
        (j + 1) holdRec = _
      rw [List.getD_cons_succ, ih j (i + 1) (step i s).1 (by omega),
        ← stateAt_shift step j i s]
      have h2 : i + 1 + j = i + (j + 1) := by omega
      rw [h2]

theorem getD_append_left (l1 l2 : List SignalRecord) (j : Nat)
    (h : j < l1.length) : (l1 ++ l2).getD j holdRec = l1.getD j holdRec := by
  rw [List.getD_eq_getElem?_getD, List.getD_eq_getElem?_getD,
    List.getElem?_append_left h]

theorem getD_append_right (l1 l2 : List SignalRecord) (j : Nat)
    (h : l1.length ≤ j) :
    (l1 ++ l2).getD j holdRec = l2.getD (j - l1.length) holdRec := by
  rw [List.getD_eq_getElem?_getD, List.getD_eq_getElem?_getD,
    List.getElem?_append_right h]

theorem getD_replicate_self (n j : Nat) :
    (List.replicate n holdRec).getD j holdRec = holdRec := by
  rw [List.getD_eq_getElem?_getD, List.getElem?_replicate]
  by_cases h : j < n <;> simp [h]

/-- Truncating the indicator dataframe just after row `i` does not change
the `strat` output row at `i`: the loop reads nothing past the current
row. -/
theorem outRow_take (v : Variant) (cfg : Config) (fs : List Frame) (i : Nat)
    (hi : i < fs.length) :
    outRow v cfg (fs.take (i + 1)) i = outRow v cfg fs i := by
  unfold outRow stratRun
  dsimp only
  have hlen : (fs.take (i + 1)).length = i + 1 := by
    rw [List.length_take]; omega
  by_cases hst : i < startIdx v cfg
  · -- both rows live in the untouched initialized region
    rw [hlen]
    have h1 : min (startIdx v cfg) (i + 1) = i + 1 := by omega
    have h2 : i + 1 - startIdx v cfg = 0 := by omega
    rw [h1, h2]
    show (List.replicate (i + 1) holdRec ++ []).getD i holdRec = _
    rw [getD_append_left _ _ i (by simp), getD_replicate_self]
    have h3 : i < min (startIdx v cfg) fs.length := by omega
    rw [getD_append_left _ _ i (by simpa using h3), getD_replicate_self]
  · -- the processed region: runs agree step-by-step up to row i
    push_neg at hst
    rw [hlen]
    have h1 : min (startIdx v cfg) (i + 1) = startIdx v cfg := by omega
    have h1' : min (startIdx v cfg) fs.length = startIdx v cfg := by omega
    rw [h1, h1']
    rw [getD_append_right _ _ i (by simpa using hst),
      getD_append_right _ _ i (by simpa using hst)]
    simp only [List.length_replicate]
    have hcong : runCore (stepOf v cfg (fs.take (i + 1))) (startIdx v cfg)
        (i + 1 - startIdx v cfg) initState =
        runCore (stepOf v cfg fs) (startIdx v cfg)
        (i + 1 - startIdx v cfg) initState := by
      refine runCore_congr _ _ _ _ _ (fun k s' hk hk' => ?_)
      exact stepOf_take v cfg fs (i + 1) k s' hk (by omega)
    rw [hcong]
    have hsplit : fs.length - startIdx v cfg =
        (i + 1 - startIdx v cfg) + (fs.length - (i + 1)) := by omega
    rw [hsplit, runCore_append]
    rw [getD_append_left _ _ (i - startIdx v cfg)
      (by rw [runCore_snd_length]; omega)]

/-! ### The indicator pipeline is causal: values below a truncation point
agree with the values on the full bar series -/

theorem trueRange_take (bs : List Bar) (m k : Nat) (h : k < m) :
    trueRange (bs.take m) k = trueRange bs k := by
  unfold trueRange
  rw [barAt_take bs m k h, barAt_take bs m (k - 1) (by omega)]

theorem rmaOf_congr (len : Nat) (g1 g2 : Nat → ℚ) (j : Nat)
    (hg : ∀ t, t ≤ j → g1 t = g2 t) : rmaOf len g1 j = rmaOf len g2 j := by
  induction j with
  | zero => rfl
  | succ j ih =>
    unfold rmaOf
    by_cases h1 : j + 1 < len
    · rw [if_pos h1, if_pos h1]
    · rw [if_neg h1, if_neg h1]
      by_cases h2 : j + 1 = len
      · rw [if_pos h2, if_pos h2]
        have hseed : ((List.range len).map (fun t => g1 (t + 1))).sum =
            ((List.range len).map (fun t => g2 (t + 1))).sum := by
          congr 1
          refine List.map_congr_left (fun t ht => ?_)
          rw [List.mem_range] at ht
          exact hg (t + 1) (by omega)
        rw [hseed]
      · rw [if_neg h2, if_neg h2, ih (fun t ht => hg t (by omega)),
          hg (j + 1) (le_refl _)]

theorem upMove_take (bs : List Bar) (m k : Nat) (h : k < m) :
    upMove (bs.take m) k = upMove bs k := by
  unfold upMove
  rw [barAt_take bs m k h, barAt_take bs m (k - 1) (by omega)]

theorem downMove_take (bs : List Bar) (m k : Nat) (h : k < m) :
    downMove (bs.take m) k = downMove bs k := by
  unfold downMove
  rw [barAt_take bs m k h, barAt_take bs m (k - 1) (by omega)]

theorem atrVal_take (len : Nat) (bs : List Bar) (m i : Nat) (h : i < m) :
    atrVal len (bs.take m) i = atrVal len bs i := by
  unfold atrVal
  exact rmaOf_congr len _ _ i
    (fun t ht => trueRange_take bs m t (by omega))

theorem rsiVal_take (len : Nat) (bs : List Bar) (m i : Nat) (h : i < m) :
    rsiVal len (bs.take m) i = rsiVal len bs i := by
  unfold rsiVal
  rw [rmaOf_congr len (upMove (bs.take m)) (upMove bs) i
      (fun t ht => upMove_take bs m t (by omega)),
    rmaOf_congr len (downMove (bs.take m)) (downMove bs) i
      (fun t ht => downMove_take bs m t (by omega))]

theorem emaVal_take (span : Nat) (bs : List Bar) (m : Nat) :
    ∀ i, i < m → emaVal span (bs.take m) i = emaVal span bs i := by
  intro i
  induction i with
  | zero =>
    intro h
    unfold emaVal
    rw [barAt_take bs m 0 (by omega)]
  | succ i ih =>
    intro h
    unfold emaVal
    rw [barAt_take bs m (i + 1) h, ih (by omega)]

theorem smaVal_take (n : Nat) (bs : List Bar) (m i : Nat) (h : i < m) :
    smaVal n (bs.take m) i = smaVal n bs i := by
  unfold smaVal
  by_cases hc : i + 1 < n ∨ n = 0
  · rw [if_pos hc, if_pos hc]
  · rw [if_neg hc, if_neg hc]
    have hmap : (List.range n).map
        (fun t => (barAt (bs.take m) (i + 1 - n + t)).close) =
        (List.range n).map (fun t => (barAt bs (i + 1 - n + t)).close) := by
      refine List.map_congr_left (fun t ht => ?_)
      rw [List.mem_range] at ht
      rw [barAt_take bs m (i + 1 - n + t) (by omega)]
    rw [hmap]

theorem macdDiff_take (fast slow : Nat) (bs : List Bar) (m i : Nat)
    (h : i < m) : macdDiff fast slow (bs.take m) i = macdDiff fast slow bs i := by
  unfold macdDiff
  rw [emaVal_take fast bs m i h, emaVal_take slow bs m i h]

theorem macdSigRaw_take (fast slow sig : Nat) (bs : List Bar) (m : Nat) :
    ∀ i, i < m →
    macdSigRaw fast slow sig (bs.take m) i = macdSigRaw fast slow sig bs i := by
  intro i
  induction i with
  | zero =>
    intro h
    unfold macdSigRaw
    rw [macdDiff_take fast slow bs m 0 (by omega)]
  | succ i ih =>
    intro h
    unfold macdSigRaw
    rw [macdDiff_take fast slow bs m (i + 1) h, ih (by omega)]

theorem macdVal_take (fast slow : Nat) (bs : List Bar) (m i : Nat)
    (h : i < m) : macdVal fast slow (bs.take m) i = macdVal fast slow bs i := by
  unfold macdVal
  by_cases hc : i + 1 < slow
  · rw [if_pos hc, if_pos hc]
  · rw [if_neg hc, if_neg hc, macdDiff_take fast slow bs m i h]

theorem macdSignalVal_take (fast slow sig : Nat) (bs : List Bar) (m i : Nat)
    (h : i < m) : macdSignalVal fast slow sig (bs.take m) i =
      macdSignalVal fast slow sig bs i := by
  unfold macdSignalVal
  by_cases hc : i + 1 < slow + sig
  · rw [if_pos hc, if_pos hc]
  · rw [if_neg hc, if_neg hc, macdSigRaw_take fast slow sig bs m i h]

theorem mkFrame_take (v : Variant) (cfg : Config) (bs : List Bar) (m i : Nat)
    (h : i < m) : mkFrame v cfg (bs.take m) i = mkFrame v cfg bs i := by
  cases v <;>
    simp only [mkFrame, barAt_take bs m i h, atrVal_take _ bs m i h,
      rsiVal_take _ bs m i h, emaVal_take _ bs m i h, smaVal_take _ bs m i h,
      macdVal_take _ _ bs m i h, macdSignalVal_take _ _ _ bs m i h]

/-- Each `process_data` is causal: the indicator rows of a prefix of the
bar series are the prefix of the indicator rows of the full series. -/
theorem pipelineOf_take (v : Variant) (cfg : Config) (bs : List Bar)
    (i : Nat) (hi : i < bs.length) :
    pipelineOf v cfg (bs.take (i + 1)) = (pipelineOf v cfg bs).take (i + 1) := by
  unfold pipelineOf
  rw [← List.map_take, List.take_range]
  have hlen : (bs.take (i + 1)).length = i + 1 := by
    rw [List.length_take]; omega
  have hmin : min (i + 1) bs.length = i + 1 := by omega
  rw [hlen, hmin]
  refine List.map_congr_left (fun k hk => ?_)
  rw [List.mem_range] at hk
  exact mkFrame_take v cfg bs (i + 1) k hk

/-! ### Per-step facts about the four transition cores -/

theorem step3Core_mono (cfg : Config) (r : M3Read) (s : PosState) :
    (s.position = 1 → (step3Core cfg r s).1.position = 1 →
      s.trailing_stop ≤ (step3Core cfg r s).1.trailing_stop) ∧
    (s.position = -1 → (step3Core cfg r s).1.position = -1 →
      (step3Core cfg r s).1.trailing_stop ≤ s.trailing_stop) := by
  unfold step3Core
  cases r.atr with
  | none => exact ⟨fun _ _ => le_refl _, fun _ _ => le_refl _⟩
  | some atr =>
    constructor <;> intro h1 <;> rw [h1] <;> norm_num <;>
      split_ifs <;> intro h2 <;> simp_all [le_max_left, min_le_left]

theorem step4Core_mono (cfg : Config) (r : M4Read) (s : PosState) :
    (s.position = 1 → (step4Core cfg r s).1.position = 1 →
      s.trailing_stop ≤ (step4Core cfg r s).1.trailing_stop) ∧
    (s.position = -1 → (step4Core cfg r s).1.position = -1 →
      (step4Core cfg r s).1.trailing_stop ≤ s.trailing_stop) := by
  unfold step4Core
  cases r.atr with
  | none => exact ⟨fun _ _ => le_refl _, fun _ _ => le_refl _⟩
  | some atr =>
    cases r.rsi with
    | none => exact ⟨fun _ _ => le_refl _, fun _ _ => le_refl _⟩
    | some rsi =>
      constructor <;> intro h1 <;> rw [h1] <;> norm_num <;>
        split_ifs <;> intro h2 <;> simp_all [le_max_left, min_le_left]

theorem step2Core_mono (cfg : Config) (r : S2Read) (s : PosState) :
    (s.position = 1 → (step2Core cfg r s).1.position = 1 →
      s.trailing_stop ≤ (step2Core cfg r s).1.trailing_stop) ∧
    (s.position = -1 → (step2Core cfg r s).1.position = -1 →
      (step2Core cfg r s).1.trailing_stop ≤ s.trailing_stop) := by
  unfold step2Core
  cases r.atr with
  | none => exact ⟨fun _ _ => le_refl _, fun _ _ => le_refl _⟩
  | some atr =>
    cases r.macd with
    | none => exact ⟨fun _ _ => le_refl _, fun _ _ => le_refl _⟩
    | some macd =>
      cases r.macd_signal with
      | none => exact ⟨fun _ _ => le_refl _, fun _ _ => le_refl _⟩
      | some macds =>
        cases r.ema with
        | none => exact ⟨fun _ _ => le_refl _, fun _ _ => le_refl _⟩
        | some ema =>
          constructor <;> intro h1 <;> rw [h1] <;> norm_num <;>
            split_ifs <;> intro h2 <;> simp_all [le_max_left, min_le_left]

theorem step5Core_mono (cfg : Config) (r : M5Read) (s : PosState) :
    (s.position = 1 → (step5Core cfg r s).1.position = 1 →
      s.trailing_stop ≤ (step5Core cfg r s).1.trailing_stop) ∧
    (s.position = -1 → (step5Core cfg r s).1.position = -1 →
      (step5Core cfg r s).1.trailing_stop ≤ s.trailing_stop) := by
  unfold step5Core
  cases r.atr with
  | none => exact ⟨fun _ _ => le_refl _, fun _ _ => le_refl _⟩
  | some atr =>
    cases r.rsi with
    | none => exact ⟨fun _ _ => le_refl _, fun _ _ => le_refl _⟩
    | some rsi =>
      cases r.sma with
      | none => exact ⟨fun _ _ => le_refl _, fun _ _ => le_refl _⟩
      | some sma =>
        constructor <;> intro h1 <;> rw [h1] <;> norm_num <;>
          split_ifs <;> intro h2 <;> simp_all [le_max_left, min_le_left]

theorem stepOf_mono (v : Variant) (cfg : Config) (fs : List Frame) (k : Nat)
    (s : PosState) :
    (s.position = 1 → (stepOf v cfg fs k s).1.position = 1 →
      s.trailing_stop ≤ (stepOf v cfg fs k s).1.trailing_stop) ∧
    (s.position = -1 → (stepOf v cfg fs k s).1.position = -1 →
      (stepOf v cfg fs k s).1.trailing_stop ≤ s.trailing_stop) := by
  cases v with
  | m3 => exact step3Core_mono cfg _ s
  | m4 => exact step4Core_mono cfg _ s
  | s2 => exact step2Core_mono cfg _ s
  | m5 => exact step5Core_mono cfg _ s

theorem step3Core_posFacts (cfg : Config) (r : M3Read) (s : PosState) :
    ((s.position = 0 ∨ s.position = 1 ∨ s.position = -1) →
      ((step3Core cfg r s).1.position = 0 ∨ (step3Core cfg r s).1.position = 1 ∨
        (step3Core cfg r s).1.position = -1)) ∧
    (((step3Core cfg r s).2.trade_type = .LONG ∨
      (step3Core cfg r s).2.trade_type = .SHORT) → s.position = 0) ∧
    (s.position ≠ 0 → (step3Core cfg r s).2.trade_type ≠ .CLOSE →
      (step3Core cfg r s).2.trade_type ≠ .REVERSE_LONG_TO_SHORT →
      (step3Core cfg r s).2.trade_type ≠ .REVERSE_SHORT_TO_LONG →
      (step3Core cfg r s).1.position = s.position) := by
  unfold step3Core
  cases r.atr with
  | none => simp [holdRec]
  | some atr => dsimp only; split_ifs <;> simp_all [holdRec]

theorem step4Core_posFacts (cfg : Config) (r : M4Read) (s : PosState) :
    ((s.position = 0 ∨ s.position = 1 ∨ s.position = -1) →
      ((step4Core cfg r s).1.position = 0 ∨ (step4Core cfg r s).1.position = 1 ∨
        (step4Core cfg r s).1.position = -1)) ∧
    (((step4Core cfg r s).2.trade_type = .LONG ∨
      (step4Core cfg r s).2.trade_type = .SHORT) → s.position = 0) ∧
    (s.position ≠ 0 → (step4Core cfg r s).2.trade_type ≠ .CLOSE →
      (step4Core cfg r s).2.trade_type ≠ .REVERSE_LONG_TO_SHORT →
      (step4Core cfg r s).2.trade_type ≠ .REVERSE_SHORT_TO_LONG →
      (step4Core cfg r s).1.position = s.position) := by
  unfold step4Core
  cases r.atr with
  | none => simp [holdRec]
  | some atr =>
    cases r.rsi with
    | none => simp [holdRec]
    | some rsi => dsimp only; split_ifs <;> simp_all [holdRec]

theorem step2Core_posFacts (cfg : Config) (r : S2Read) (s : PosState) :
    ((s.position = 0 ∨ s.position = 1 ∨ s.position = -1) →
      ((step2Core cfg r s).1.position = 0 ∨ (step2Core cfg r s).1.position = 1 ∨
        (step2Core cfg r s).1.position = -1)) ∧
    (((step2Core cfg r s).2.trade_type = .LONG ∨
      (step2Core cfg r s).2.trade_type = .SHORT) → s.position = 0) ∧
    (s.position ≠ 0 → (step2Core cfg r s).2.trade_type ≠ .CLOSE →
      (step2Core cfg r s).2.trade_type ≠ .REVERSE_LONG_TO_SHORT →
      (step2Core cfg r s).2.trade_type ≠ .REVERSE_SHORT_TO_LONG →
      (step2Core cfg r s).1.position = s.position) := by
  unfold step2Core
  cases r.atr with
  | none => simp [holdRec]
  | some atr =>
    cases r.macd with
    | none => simp [holdRec]
    | some macd =>
      cases r.macd_signal with
      | none => simp [holdRec]
      | some macds =>
        cases r.ema with
        | none => simp [holdRec]
        | some ema => dsimp only; split_ifs <;> simp_all [holdRec]

theorem step5Core_posFacts (cfg : Config) (r : M5Read) (s : PosState) :
    ((s.position = 0 ∨ s.position = 1 ∨ s.position = -1) →
      ((step5Core cfg r s).1.position = 0 ∨ (step5Core cfg r s).1.position = 1 ∨
        (step5Core cfg r s).1.position = -1)) ∧
    (((step5Core cfg r s).2.trade_type = .LONG ∨
      (step5Core cfg r s).2.trade_type = .SHORT) → s.position = 0) ∧
    (s.position ≠ 0 → (step5Core cfg r s).2.trade_type ≠ .CLOSE →
      (step5Core cfg r s).2.trade_type ≠ .REVERSE_LONG_TO_SHORT →
      (step5Core cfg r s).2.trade_type ≠ .REVERSE_SHORT_TO_LONG →
      (step5Core cfg r s).1.position = s.position) := by
  unfold step5Core
  cases r.atr with
  | none => simp [holdRec]
  | some atr =>
    cases r.rsi with
    | none => simp [holdRec]
    | some rsi =>
      cases r.sma with
      | none => simp [holdRec]
      | some sma => dsimp only; split_ifs <;> simp_all [holdRec]

theorem stepOf_posFacts (v : Variant) (cfg : Config) (fs : List Frame)
    (k : Nat) (s : PosState) :
    ((s.position = 0 ∨ s.position = 1 ∨ s.position = -1) →
      ((stepOf v cfg fs k s).1.position = 0 ∨
        (stepOf v cfg fs k s).1.position = 1 ∨
        (stepOf v cfg fs k s).1.position = -1)) ∧
    (((stepOf v cfg fs k s).2.trade_type = .LONG ∨
      (stepOf v cfg fs k s).2.trade_type = .SHORT) → s.position = 0) ∧
    (s.position ≠ 0 → (stepOf v cfg fs k s).2.trade_type ≠ .CLOSE →
      (stepOf v cfg fs k s).2.trade_type ≠ .REVERSE_LONG_TO_SHORT →
      (stepOf v cfg fs k s).2.trade_type ≠ .REVERSE_SHORT_TO_LONG →
      (stepOf v cfg fs k s).1.position = s.position) := by
  cases v with
  | m3 => exact step3Core_posFacts cfg _ s
  | m4 => exact step4Core_posFacts cfg _ s
  | s2 => exact step2Core_posFacts cfg _ s
  | m5 => exact step5Core_posFacts cfg _ s

/-- All reachable run states carry a legal position value. -/
theorem runState_pos_legal (v : Variant) (cfg : Config) (fs : List Frame) :
    ∀ n, (runState v cfg fs n).position = 0 ∨
      (runState v cfg fs n).position = 1 ∨ (runState v cfg fs n).position = -1 := by
  intro n
  induction n with
  | zero => exact Or.inl rfl
  | succ n ih =>
    exact (stepOf_posFacts v cfg fs (startIdx v cfg + n)
      (runState v cfg fs n)).1 ih

/-- The output row at a processed index is the step applied to the entering
run state. -/
theorem outRow_processed (v : Variant) (cfg : Config) (fs : List Frame)
    (i : Nat) (h1 : startIdx v cfg ≤ i) (h2 : i < fs.length) :
    outRow v cfg fs i =
      (stepOf v cfg fs i (runState v cfg fs (i - startIdx v cfg))).2 := by
  unfold outRow stratRun
  dsimp only
  have hmin : min (startIdx v cfg) fs.length = startIdx v cfg := by omega
  rw [hmin]
  rw [getD_append_right _ _ i (by simpa using h1)]
  simp only [List.length_replicate]
  rw [runCore_snd_getD _ _ _ _ _ (by omega)]
  unfold runState
  have hidx : startIdx v cfg + (i - startIdx v cfg) = i := by omega
  rw [hidx]

/-! ### The claims -/

/-- C1.  Causality / prefix-stability: for every strategy variant, every
configuration and every index `i`, running `process_data` followed by
`strat` on the prefix `bars[0..i]` alone yields the same output row at
index `i` as running them on the full bar series; no emitted signal depends
on data with index greater than `i`. -/
theorem c1_causality (v : Variant) (cfg : Config) (bars : List Bar) (i : Nat)
    (hi : i < bars.length) :
    (engineOut v cfg (bars.take (i + 1))).getD i holdRec =
      (engineOut v cfg bars).getD i holdRec := by
  unfold engineOut
  rw [pipelineOf_take v cfg bars i hi]
  have h2 : i < (pipelineOf v cfg bars).length := by
    unfold pipelineOf
    simpa using hi
  exact outRow_take v cfg (pipelineOf v cfg bars) i h2

theorem c1_causality_witness :
    1 < barsA.length ∧
    (engineOut .m3 cfgB (barsA.take 2)).getD 1 holdRec =
      (engineOut .m3 cfgB barsA).getD 1 holdRec :=
  ⟨by decide, c1_causality .m3 cfgB barsA 1 (by decide)⟩

/-- C2.  Trailing-stop monotonicity: in every variant, whenever a long
position is held entering two consecutive processed bars, the trailing stop
does not decrease from one to the next (it is only ratcheted by
`max(trailing_stop, close - ATR * multiplier)`); for a held short position
it does not increase. -/
theorem c2_trailing_stop_monotonic (v : Variant) (cfg : Config)
    (fs : List Frame) (n : Nat) :
    ((runState v cfg fs n).position = 1 →
      (runState v cfg fs (n + 1)).position = 1 →
      (runState v cfg fs n).trailing_stop ≤
        (runState v cfg fs (n + 1)).trailing_stop) ∧
    ((runState v cfg fs n).position = -1 →
      (runState v cfg fs (n + 1)).position = -1 →
      (runState v cfg fs (n + 1)).trailing_stop ≤
        (runState v cfg fs n).trailing_stop) := by
  have h : runState v cfg fs (n + 1) =
      (stepOf v cfg fs (startIdx v cfg + n) (runState v cfg fs n)).1 := rfl
  rw [h]
  exact stepOf_mono v cfg fs _ _

theorem c2_trailing_stop_monotonic_witness :
    (runState .m5 cfgW frMono 1).position = 1 ∧
    (runState .m5 cfgW frMono 2).position = 1 ∧
    (runState .m5 cfgW frMono 1).trailing_stop ≤
      (runState .m5 cfgW frMono 2).trailing_stop :=
  ⟨by with_unfolding_all decide, by with_unfolding_all decide,
    (c2_trailing_stop_monotonic .m5 cfgW frMono 1).1
      (by with_unfolding_all decide) (by with_unfolding_all decide)⟩

/-- C3.  Single-open-position: in every variant the position state at every
processed bar is exactly flat (0), long (1), or short (-1); an opening
LONG/SHORT row is emitted at a bar only if the state entering that bar is
flat; and while a position is held, the position is unchanged at any bar
that emits neither CLOSE nor a reversal — hence between an opening signal
and the next CLOSE/REVERSE no other opening signal can occur. -/
theorem c3_single_open_position (v : Variant) (cfg : Config)
    (fs : List Frame) :
    (∀ n, (runState v cfg fs n).position = 0 ∨
      (runState v cfg fs n).position = 1 ∨
      (runState v cfg fs n).position = -1) ∧
    (∀ i, startIdx v cfg ≤ i → i < fs.length →
      ((outRow v cfg fs i).trade_type = .LONG ∨
        (outRow v cfg fs i).trade_type = .SHORT) →
      (runState v cfg fs (i - startIdx v cfg)).position = 0) ∧
    (∀ i, startIdx v cfg ≤ i → i < fs.length →
      (runState v cfg fs (i - startIdx v cfg)).position ≠ 0 →
      (outRow v cfg fs i).trade_type ≠ .CLOSE →
      (outRow v cfg fs i).trade_type ≠ .REVERSE_LONG_TO_SHORT →
      (outRow v cfg fs i).trade_type ≠ .REVERSE_SHORT_TO_LONG →
      (runState v cfg fs (i - startIdx v cfg + 1)).position =
        (runState v cfg fs (i - startIdx v cfg)).position) := by
  refine ⟨runState_pos_legal v cfg fs, fun i h1 h2 hop => ?_,
    fun i h1 h2 hne hc hr1 hr2 => ?_⟩
  · rw [outRow_processed v cfg fs i h1 h2] at hop
    exact (stepOf_posFacts v cfg fs i _).2.1 hop
  · rw [outRow_processed v cfg fs i h1 h2] at hc hr1 hr2
    have hstep := (stepOf_posFacts v cfg fs i
      (runState v cfg fs (i - startIdx v cfg))).2.2 hne hc hr1 hr2
    have hun : runState v cfg fs (i - startIdx v cfg + 1) =
        (stepOf v cfg fs (startIdx v cfg + (i - startIdx v cfg))
          (runState v cfg fs (i - startIdx v cfg))).1 := rfl
    rw [hun]
    have hidx : startIdx v cfg + (i - startIdx v cfg) = i := by omega
    rw [hidx]
    exact hstep

theorem c3_single_open_position_witness :
    (outRow .m5 cfgW frMono 1).trade_type = .LONG ∧
    (runState .m5 cfgW frMono 0).position = 0 :=
  ⟨by with_unfolding_all decide,
    (c3_single_open_position .m5 cfgW frMono).2.1 1 (by decide) (by decide)
      (Or.inl (by with_unfolding_all decide))⟩

theorem step3Core_pairs (cfg : Config) (r : M3Read) (s : PosState) :
    pairOK (step3Core cfg r s).2 ∧
    ((step3Core cfg r s).2.trade_type = .CLOSE →
      ((step3Core cfg r s).2.signals = -1 ∧ s.position = 1) ∨
      ((step3Core cfg r s).2.signals = 1 ∧ s.position = -1)) := by
  unfold step3Core
  cases r.atr with
  | none => simp [pairOK, holdRec]
  | some atr => dsimp only; split_ifs <;> simp_all [pairOK, holdRec]

theorem step4Core_pairs (cfg : Config) (r : M4Read) (s : PosState) :
    pairOK (step4Core cfg r s).2 ∧
    ((step4Core cfg r s).2.trade_type = .CLOSE →
      ((step4Core cfg r s).2.signals = -1 ∧ s.position = 1) ∨
      ((step4Core cfg r s).2.signals = 1 ∧ s.position = -1)) := by
  unfold step4Core
  cases r.atr with
  | none => simp [pairOK, holdRec]
  | some atr =>
    cases r.rsi with
    | none => simp [pairOK, holdRec]
    | some rsi => dsimp only; split_ifs <;> simp_all [pairOK, holdRec]

theorem step2Core_pairs (cfg : Config) (r : S2Read) (s : PosState) :
    pairOK (step2Core cfg r s).2 ∧
    ((step2Core cfg r s).2.trade_type = .CLOSE →
      ((step2Core cfg r s).2.signals = -1 ∧ s.position = 1) ∨
      ((step2Core cfg r s).2.signals = 1 ∧ s.position = -1)) := by
  unfold step2Core
  cases r.atr with
  | none => simp [pairOK, holdRec]
  | some atr =>
    cases r.macd with
    | none => simp [pairOK, holdRec]
    | some macd =>
      cases r.macd_signal with
      | none => simp [pairOK, holdRec]
      | some macds =>
        cases r.ema with
        | none => simp [pairOK, holdRec]
        | some ema => dsimp only; split_ifs <;> simp_all [pairOK, holdRec]

theorem step5Core_pairs (cfg : Config) (r : M5Read) (s : PosState) :
    pairOK (step5Core cfg r s).2 ∧
    ((step5Core cfg r s).2.trade_type = .CLOSE →
      ((step5Core cfg r s).2.signals = -1 ∧ s.position = 1) ∨
      ((step5Core cfg r s).2.signals = 1 ∧ s.position = -1)) := by
  unfold step5Core
  cases r.atr with
  | none => simp [pairOK, holdRec]
  | some atr =>
    cases r.rsi with
    | none => simp [pairOK, holdRec]
    | some rsi =>
      cases r.sma with
      | none => simp [pairOK, holdRec]
      | some sma => dsimp only; split_ifs <;> simp_all [pairOK, holdRec]

theorem stepOf_pairs (v : Variant) (cfg : Config) (fs : List Frame) (k : Nat)
    (s : PosState) :
    pairOK (stepOf v cfg fs k s).2 ∧
    ((stepOf v cfg fs k s).2.trade_type = .CLOSE →
      ((stepOf v cfg fs k s).2.signals = -1 ∧ s.position = 1) ∨
      ((stepOf v cfg fs k s).2.signals = 1 ∧ s.position = -1)) := by
  cases v with
  | m3 => exact step3Core_pairs cfg _ s
  | m4 => exact step4Core_pairs cfg _ s
  | s2 => exact step2Core_pairs cfg _ s
  | m5 => exact step5Core_pairs cfg _ s

/-- Every row a run emits comes from some step (or is the initialized
hold row). -/
theorem runCore_mem (step : Nat → PosState → PosState × SignalRecord)
    (n : Nat) : ∀ (i : Nat) (s : PosState) (rec : SignalRecord),
    rec ∈ (runCore step i n s).2 → ∃ k s', rec = (step k s').2 := by
  induction n with
  | zero => intro i s rec h; cases h
  | succ n ih =>
    intro i s rec h
    rcases List.mem_cons.mp h with h1 | h2
    · exact ⟨i, s, h1⟩
    · exact ih (i + 1) (step i s).1 rec h2

/-- C10.  Signal/trade-type pairing: every output row is one of the seven
pairs (0, HOLD), (1, LONG), (-1, SHORT), (-1, CLOSE), (1, CLOSE),
(-2, REVERSE_LONG_TO_SHORT), (2, REVERSE_SHORT_TO_LONG) — so |signals| = 2
exactly on reversals and signals = 0 exactly on HOLD — and a CLOSE row has
signals -1 exactly when it closes a long and +1 when it closes a short. -/
theorem c10_signal_pairing (v : Variant) (cfg : Config) (fs : List Frame) :
    (∀ rec, rec ∈ (stratRun v cfg fs).2 → pairOK rec) ∧
    (∀ i, startIdx v cfg ≤ i → i < fs.length →
      (outRow v cfg fs i).trade_type = .CLOSE →
      ((outRow v cfg fs i).signals = -1 ∧
        (runState v cfg fs (i - startIdx v cfg)).position = 1) ∨
      ((outRow v cfg fs i).signals = 1 ∧
        (runState v cfg fs (i - startIdx v cfg)).position = -1)) := by
  constructor
  · intro rec hmem
    unfold stratRun at hmem
    dsimp only at hmem
    rcases List.mem_append.mp hmem with h1 | h2
    · have := List.eq_of_mem_replicate h1
      subst this
      exact Or.inl rfl
    · obtain ⟨k, s', hk⟩ := runCore_mem _ _ _ _ rec h2
      rw [hk]
      exact (stepOf_pairs v cfg fs k s').1
  · intro i h1 h2 hc
    rw [outRow_processed v cfg fs i h1 h2] at hc ⊢
    exact (stepOf_pairs v cfg fs i _).2 hc

theorem c10_signal_pairing_witness :
    pairOK ⟨1, .LONG⟩ :=
  (c10_signal_pairing .m5 cfgW frMono).1 ⟨1, .LONG⟩
    (by with_unfolding_all decide)

theorem step3Core_close_state (cfg : Config) (r : M3Read) (s : PosState) :
    (step3Core cfg r s).2.trade_type = .CLOSE →
    (step3Core cfg r s).1 = ⟨0, s.trailing_stop, 0⟩ := by
  unfold step3Core
  cases r.atr with
  | none => simp [holdRec]
  | some atr => dsimp only; split_ifs <;> simp_all [holdRec]

theorem step4Core_close_state (cfg : Config) (r : M4Read) (s : PosState) :
    (step4Core cfg r s).2.trade_type = .CLOSE →
    (step4Core cfg r s).1 = ⟨0, s.trailing_stop, 0⟩ := by
  unfold step4Core
  cases r.atr with
  | none => simp [holdRec]
  | some atr =>
    cases r.rsi with
    | none => simp [holdRec]
    | some rsi => dsimp only; split_ifs <;> simp_all [holdRec]

theorem step2Core_close_state (cfg : Config) (r : S2Read) (s : PosState) :
    (step2Core cfg r s).2.trade_type = .CLOSE →
    (step2Core cfg r s).1 = ⟨0, s.trailing_stop, 0⟩ := by
  unfold step2Core
  cases r.atr with
  | none => simp [holdRec]
  | some atr =>
    cases r.macd with
    | none => simp [holdRec]
    | some macd =>
      cases r.macd_signal with
      | none => simp [holdRec]
      | some macds =>
        cases r.ema with
        | none => simp [holdRec]
        | some ema => dsimp only; split_ifs <;> simp_all [holdRec]

theorem step5Core_close_state (cfg : Config) (r : M5Read) (s : PosState) :
    (step5Core cfg r s).2.trade_type = .CLOSE →
    (step5Core cfg r s).1 = ⟨0, s.trailing_stop, 0⟩ := by
  unfold step5Core
  cases r.atr with
  | none => simp [holdRec]
  | some atr =>
    cases r.rsi with
    | none => simp [holdRec]
    | some rsi =>
      cases r.sma with
      | none => simp [holdRec]
      | some sma => dsimp only; split_ifs <;> simp_all [holdRec]

theorem stepOf_close_state (v : Variant) (cfg : Config) (fs : List Frame)
    (k : Nat) (s : PosState) :
    (stepOf v cfg fs k s).2.trade_type = .CLOSE →
    (stepOf v cfg fs k s).1 = ⟨0, s.trailing_stop, 0⟩ := by
  cases v with
  | m3 => exact step3Core_close_state cfg _ s
  | m4 => exact step4Core_close_state cfg _ s
  | s2 => exact step2Core_close_state cfg _ s
  | m5 => exact step5Core_close_state cfg _ s

/-- C7 (counterexample to the claim as stated): a main5 run that opens a
long with trailing stop 8 and force-closes it; the CLOSE row is emitted,
yet the loop state after the close still carries trailing_stop = 8, not the
claimed 0.0 — only side and counter are reset. -/
theorem c7_state_not_fully_reset :
    (outRow .m5 cfgW frCl 2).trade_type = .CLOSE ∧
    (stratRun .m5 cfgW frCl).1 = ⟨0, 8, 0⟩ ∧ (8 : ℚ) ≠ 0 :=
  ⟨by with_unfolding_all decide, by with_unfolding_all decide,
    by with_unfolding_all decide⟩

/-- C7 as amended: whenever a CLOSE row is emitted at a processed bar, the
position becomes flat (0) and the adverse counter becomes 0, while the
trailing stop keeps its previous value (it is stale until overwritten by
the next entry); the trailing stop is not reset to 0.0. -/
theorem c7_close_resets_side_and_counter (v : Variant) (cfg : Config)
    (fs : List Frame) (i : Nat) (h1 : startIdx v cfg ≤ i)
    (h2 : i < fs.length) (hc : (outRow v cfg fs i).trade_type = .CLOSE) :
    runState v cfg fs (i - startIdx v cfg + 1) =
      ⟨0, (runState v cfg fs (i - startIdx v cfg)).trailing_stop, 0⟩ := by
  rw [outRow_processed v cfg fs i h1 h2] at hc
  have hun : runState v cfg fs (i - startIdx v cfg + 1) =
      (stepOf v cfg fs (startIdx v cfg + (i - startIdx v cfg))
        (runState v cfg fs (i - startIdx v cfg))).1 := rfl
  rw [hun]
  have hidx : startIdx v cfg + (i - startIdx v cfg) = i := by omega
  rw [hidx]
  exact stepOf_close_state v cfg fs i _ hc

theorem c7_close_resets_side_and_counter_witness :
    runState .m5 cfgW frCl 2 = ⟨0, (runState .m5 cfgW frCl 1).trailing_stop, 0⟩ :=
  c7_close_resets_side_and_counter .m5 cfgW frCl 2 (by decide) (by decide)
    (by with_unfolding_all decide)

/-- C5 (counterexample to the claim as stated): in the volume-spike variant
main4, a held long hit by a bearish volume-spike bar does NOT reverse when
RSI sits above the short entry threshold — the run below holds a long
entering bar 5, bar 5 is a bearish volume spike, and the emitted row is
(0, HOLD), not (-2, REVERSE_LONG_TO_SHORT). -/
theorem c5_rsi_gate_blocks_reversal :
    (runState .m4 cfgW frC5 1).position = 1 ∧
    volumeSpikeAt cfgW.volume_lookback frC5 5 = true ∧
    (frameAt frC5 5).close < (frameAt frC5 5).open_ ∧
    outRow .m4 cfgW frC5 5 = ⟨0, .HOLD⟩ :=
  ⟨by with_unfolding_all decide, by with_unfolding_all decide,
    by with_unfolding_all decide, by with_unfolding_all decide⟩

/-- C5 as amended: reversal is a single atomic record.  In main3, a held
long whose bar shows a volume spike and a bearish candle yields exactly the
record (-2, REVERSE_LONG_TO_SHORT), flips the side to short, sets
trailing_stop = close + ATR * multiplier and zeroes the adverse counter —
whatever the counter and stop were, so it preempts the counter and
trailing-stop exits; mirror for a held short on a bullish spike.  In main4
the same holds with the additional RSI gate (rsi ≤ short threshold for
long-to-short, rsi ≥ long threshold for short-to-long). -/
theorem c5_reversal_atomic (cfg : Config) (fs : List Frame) (k : Nat)
    (s : PosState) (a : ℚ) :
    ((frameAt fs k).atr = some a →
      volumeSpikeAt cfg.volume_lookback fs k = true →
      (frameAt fs k).close < (frameAt fs k).open_ → s.position = 1 →
      stepOf .m3 cfg fs k s =
        (⟨-1, (frameAt fs k).close + a * cfg.trailing_stop_multiplier, 0⟩,
          ⟨-2, .REVERSE_LONG_TO_SHORT⟩)) ∧
    ((frameAt fs k).atr = some a →
      volumeSpikeAt cfg.volume_lookback fs k = true →
      (frameAt fs k).open_ < (frameAt fs k).close → s.position = -1 →
      stepOf .m3 cfg fs k s =
        (⟨1, (frameAt fs k).close - a * cfg.trailing_stop_multiplier, 0⟩,
          ⟨2, .REVERSE_SHORT_TO_LONG⟩)) ∧
    (∀ rs, (frameAt fs k).atr = some a → (frameAt fs k).rsi = some rs →
      volumeSpikeAt cfg.volume_lookback fs k = true →
      (frameAt fs k).close < (frameAt fs k).open_ →
      rs ≤ cfg.rsi_entry_threshold_short → s.position = 1 →
      stepOf .m4 cfg fs k s =
        (⟨-1, (frameAt fs k).close + a * cfg.trailing_stop_multiplier, 0⟩,
          ⟨-2, .REVERSE_LONG_TO_SHORT⟩)) ∧
    (∀ rs, (frameAt fs k).atr = some a → (frameAt fs k).rsi = some rs →
      volumeSpikeAt cfg.volume_lookback fs k = true →
      (frameAt fs k).open_ < (frameAt fs k).close →
      cfg.rsi_entry_threshold_long ≤ rs → s.position = -1 →
      stepOf .m4 cfg fs k s =
        (⟨1, (frameAt fs k).close - a * cfg.trailing_stop_multiplier, 0⟩,
          ⟨2, .REVERSE_SHORT_TO_LONG⟩)) := by
  refine ⟨fun h hs hco hp => ?_, fun h hs hco hp => ?_,
    fun rs h hr hs hco hrs hp => ?_, fun rs h hr hs hco hrs hp => ?_⟩
  · unfold volumeSpikeAt at hs
    unfold stepOf step3Core m3read
    dsimp only
    rw [h]
    dsimp only
    rw [hp]
    simp [hs, hco, not_lt.mpr (le_of_lt hco)]
  · unfold volumeSpikeAt at hs
    unfold stepOf step3Core m3read
    dsimp only
    rw [h]
    dsimp only
    rw [hp]
    simp [hs, hco, not_lt.mpr (le_of_lt hco)]
  · unfold volumeSpikeAt at hs
    unfold stepOf step4Core m4read
    dsimp only
    rw [h, hr]
    dsimp only
    rw [hp]
    simp [hs, hco, hrs, not_lt.mpr (le_of_lt hco)]
  · unfold volumeSpikeAt at hs
    unfold stepOf step4Core m4read
    dsimp only
    rw [h, hr]
    dsimp only
    rw [hp]
    simp [hs, hco, hrs, not_lt.mpr (le_of_lt hco)]

theorem c5_reversal_atomic_witness :
    stepOf .m3 cfgW frC5 5 ⟨1, 0, 1⟩ =
      (⟨-1, (frameAt frC5 5).close + 1 * cfgW.trailing_stop_multiplier, 0⟩,
        ⟨-2, .REVERSE_LONG_TO_SHORT⟩) :=
  (c5_reversal_atomic cfgW frC5 5 ⟨1, 0, 1⟩ 1).1
    (by with_unfolding_all decide) (by with_unfolding_all decide)
    (by with_unfolding_all decide) (by with_unfolding_all decide)

/-- A NaN in any of the indicator cells a variant checks makes the bar a
pure no-op (`continue`): the state is untouched and the row keeps 0/HOLD. -/
theorem stepOf_nan_skip (v : Variant) (cfg : Config) (fs : List Frame)
    (i : Nat) (s : PosState) (hn : requiredNaN v (frameAt fs i) = true) :
    stepOf v cfg fs i s = (s, holdRec) := by
  cases v with
  | m3 =>
    cases hA : (frameAt fs i).atr <;>
      simp_all [requiredNaN, stepOf, step3Core, m3read]
  | m4 =>
    cases hA : (frameAt fs i).atr <;> cases hR : (frameAt fs i).rsi <;>
      simp_all [requiredNaN, stepOf, step4Core, m4read]
  | s2 =>
    cases hA : (frameAt fs i).atr <;> cases hM : (frameAt fs i).macd <;>
      cases hS : (frameAt fs i).macd_signal <;>
      cases hE : (frameAt fs i).ema <;>
      simp_all [requiredNaN, stepOf, step2Core, s2read]
  | m5 =>
    cases hA : (frameAt fs i).atr <;> cases hR : (frameAt fs i).rsi <;>
      cases hS : (frameAt fs i).sma <;>
      simp_all [requiredNaN, stepOf, step5Core, m5read]

/-- C6.  Warm-up and undefined-indicator safety: in every variant, rows
before `start_idx` keep signals 0 and trade_type HOLD; and at any row where
an indicator the active configuration checks is NaN, the step is a pure
no-op — the emitted row is 0/HOLD and the position state (side, stop,
counter) is exactly the state before the bar. -/
theorem c6_warmup_and_nan_safety (v : Variant) (cfg : Config)
    (fs : List Frame) (i : Nat) (s : PosState) :
    (i < startIdx v cfg → outRow v cfg fs i = holdRec) ∧
    (requiredNaN v (frameAt fs i) = true → stepOf v cfg fs i s = (s, holdRec)) := by
  constructor
  · intro hlt
    unfold outRow stratRun
    dsimp only
    by_cases hl : i < fs.length
    · rw [getD_append_left _ _ i
        (by simp only [List.length_replicate]; omega), getD_replicate_self]
    · rw [List.getD_eq_default]
      rw [List.length_append, List.length_replicate, runCore_snd_length]
      omega
  · exact stepOf_nan_skip v cfg fs i s

theorem c6_warmup_and_nan_safety_witness :
    outRow .m3 cfgW frMono 0 = holdRec ∧
    stepOf .m3 cfgW frNaN 0 ⟨1, 5, 2⟩ = (⟨1, 5, 2⟩, holdRec) :=
  ⟨(c6_warmup_and_nan_safety .m3 cfgW frMono 0 initState).1 (by decide),
    (c6_warmup_and_nan_safety .m3 cfgW frNaN 0 ⟨1, 5, 2⟩).2
      (by with_unfolding_all decide)⟩

theorem step3Core_nwBound (cfg : Config) (r : M3Read) (s : PosState)
    (hone : 1 ≤ cfg.num_wrong_limit)
    (hs : s.position ≠ 0 → s.num_wrong < cfg.num_wrong_limit) :
    (step3Core cfg r s).1.position ≠ 0 →
      (step3Core cfg r s).1.num_wrong < cfg.num_wrong_limit := by
  unfold step3Core
  cases r.atr with
  | none => exact hs
  | some atr => dsimp only; split_ifs <;> simp_all <;> omega

theorem step4Core_nwBound (cfg : Config) (r : M4Read) (s : PosState)
    (hone : 1 ≤ cfg.num_wrong_limit)
    (hs : s.position ≠ 0 → s.num_wrong < cfg.num_wrong_limit) :
    (step4Core cfg r s).1.position ≠ 0 →
      (step4Core cfg r s).1.num_wrong < cfg.num_wrong_limit := by
  unfold step4Core
  cases r.atr with
  | none => exact hs
  | some atr =>
    cases r.rsi with
    | none => exact hs
    | some rsi => dsimp only; split_ifs <;> simp_all <;> omega

theorem step2Core_nwBound (cfg : Config) (r : S2Read) (s : PosState)
    (hone : 1 ≤ cfg.num_wrong_limit)
    (hs : s.position ≠ 0 → s.num_wrong < cfg.num_wrong_limit) :
    (step2Core cfg r s).1.position ≠ 0 →
      (step2Core cfg r s).1.num_wrong < cfg.num_wrong_limit := by
  unfold step2Core
  cases r.atr with
  | none => exact hs
  | some atr =>
    cases r.macd with
    | none => exact hs
    | some macd =>
      cases r.macd_signal with
      | none => exact hs
      | some macds =>
        cases r.ema with
        | none => exact hs
        | some ema => dsimp only; split_ifs <;> simp_all <;> omega

theorem step5Core_nwBound (cfg : Config) (r : M5Read) (s : PosState)
    (hone : 1 ≤ cfg.num_wrong_limit)
    (hs : s.position ≠ 0 → s.num_wrong < cfg.num_wrong_limit) :
    (step5Core cfg r s).1.position ≠ 0 →
      (step5Core cfg r s).1.num_wrong < cfg.num_wrong_limit := by
  unfold step5Core
  cases r.atr with
  | none => exact hs
  | some atr =>
    cases r.rsi with
    | none => exact hs
    | some rsi =>
      cases r.sma with
      | none => exact hs
      | some sma => dsimp only; split_ifs <;> simp_all <;> omega

theorem stepOf_nwBound (v : Variant) (cfg : Config) (fs : List Frame)
    (k : Nat) (s : PosState) (hone : 1 ≤ cfg.num_wrong_limit)
    (hs : s.position ≠ 0 → s.num_wrong < cfg.num_wrong_limit) :
    (stepOf v cfg fs k s).1.position ≠ 0 →
      (stepOf v cfg fs k s).1.num_wrong < cfg.num_wrong_limit := by
  cases v with
  | m3 => exact step3Core_nwBound cfg _ s hone hs
  | m4 => exact step4Core_nwBound cfg _ s hone hs
  | s2 => exact step2Core_nwBound cfg _ s hone hs
  | m5 => exact step5Core_nwBound cfg _ s hone hs

set_option maxHeartbeats 1600000 in
/-- C4.  Adverse-counter bound, as a per-bar characterization plus a global
bound: in every variant, at a processed bar with defined indicators, on a
held long with an adverse close (close ≤ previous close) and no
reversal/exit trigger preempting the counter, the bar where the counter
reaches `num_wrong_limit` emits exactly (-1, CLOSE) and flattens the
position; below the limit (and with the trailing stop untouched) the
position is kept and the counter advances by exactly one; mirror for
shorts; and over every run with `num_wrong_limit ≥ 1` a held position's
counter never reaches the limit — consecutive-adverse exposure is bounded
by `num_wrong_limit` bars. -/
theorem c4_adverse_counter_bound (v : Variant) (cfg : Config)
    (fs : List Frame) (k : Nat) (s : PosState) :
    (s.position = 1 → requiredNaN v (frameAt fs k) = false →
      adverseLong fs k → longPreempt v cfg fs k = false →
      cfg.num_wrong_limit ≤ s.num_wrong + 1 →
      stepOf v cfg fs k s = (⟨0, s.trailing_stop, 0⟩, ⟨-1, .CLOSE⟩)) ∧
    (s.position = 1 → requiredNaN v (frameAt fs k) = false →
      adverseLong fs k → longPreempt v cfg fs k = false →
      s.num_wrong + 1 < cfg.num_wrong_limit →
      ¬((frameAt fs k).close < s.trailing_stop) →
      (stepOf v cfg fs k s).1.position = 1 ∧
      (stepOf v cfg fs k s).1.num_wrong = s.num_wrong + 1 ∧
      (stepOf v cfg fs k s).2 = holdRec) ∧
    (s.position = -1 → requiredNaN v (frameAt fs k) = false →
      adverseShort fs k → shortPreempt v cfg fs k = false →
      cfg.num_wrong_limit ≤ s.num_wrong + 1 →
      stepOf v cfg fs k s = (⟨0, s.trailing_stop, 0⟩, ⟨1, .CLOSE⟩)) ∧
    (s.position = -1 → requiredNaN v (frameAt fs k) = false →
      adverseShort fs k → shortPreempt v cfg fs k = false →
      s.num_wrong + 1 < cfg.num_wrong_limit →
      ¬(s.trailing_stop < (frameAt fs k).close) →
      (stepOf v cfg fs k s).1.position = -1 ∧
      (stepOf v cfg fs k s).1.num_wrong = s.num_wrong + 1 ∧
      (stepOf v cfg fs k s).2 = holdRec) ∧
    (1 ≤ cfg.num_wrong_limit → ∀ n,
      (runState v cfg fs n).position ≠ 0 →
      (runState v cfg fs n).num_wrong < cfg.num_wrong_limit) := by
  refine ⟨fun hp hreq hadv hprev hlim => ?_,
    fun hp hreq hadv hprev hlim hts => ?_,
    fun hp hreq hadv hprev hlim => ?_,
    fun hp hreq hadv hprev hlim hts => ?_,
    fun hone n => ?_⟩
  · -- (a) long
    cases v with
    | m3 =>
      rcases hA : (frameAt fs k).atr with _ | a
      · simp [requiredNaN, hA] at hreq
      · unfold stepOf step3Core m3read
        rw [hA]
        dsimp only
        simp only [longPreempt, volumeSpikeAt] at hprev
        unfold adverseLong at hadv
        rw [hp]
        split_ifs <;> simp_all
    | m4 =>
      rcases hA : (frameAt fs k).atr with _ | a
      · simp [requiredNaN, hA] at hreq
      · rcases hR : (frameAt fs k).rsi with _ | rs
        · simp [requiredNaN, hA, hR] at hreq
        · unfold stepOf step4Core m4read
          rw [hA, hR]
          dsimp only
          simp only [longPreempt, volumeSpikeAt, hR, leOpt] at hprev
          unfold adverseLong at hadv
          rw [hp]
          split_ifs <;> simp_all
    | s2 =>
      rcases hA : (frameAt fs k).atr with _ | a
      · simp [requiredNaN, hA] at hreq
      · rcases hM : (frameAt fs k).macd with _ | m
        · simp [requiredNaN, hA, hM] at hreq
        · rcases hS : (frameAt fs k).macd_signal with _ | ms
          · simp [requiredNaN, hA, hM, hS] at hreq
          · rcases hE : (frameAt fs k).ema with _ | e
            · simp [requiredNaN, hA, hM, hS, hE] at hreq
            · unfold stepOf step2Core s2read
              rw [hA, hM, hS, hE]
              dsimp only
              simp only [longPreempt, crossDownAt, hM, hS, hE, ltOpt] at hprev
              unfold adverseLong at hadv
              rw [hp]
              split_ifs <;> simp_all [ltOpt]
    | m5 =>
      rcases hA : (frameAt fs k).atr with _ | a
      · simp [requiredNaN, hA] at hreq
      · rcases hR : (frameAt fs k).rsi with _ | rs
        · simp [requiredNaN, hA, hR] at hreq
        · rcases hS : (frameAt fs k).sma with _ | sm
          · simp [requiredNaN, hA, hR, hS] at hreq
          · unfold stepOf step5Core m5read
            rw [hA, hR, hS]
            dsimp only
            simp only [longPreempt, hR, hS, ltOpt] at hprev
            unfold adverseLong at hadv
            rw [hp]
            split_ifs <;> simp_all [ltOpt]
  · -- (b) long
    cases v with
    | m3 =>
      rcases hA : (frameAt fs k).atr with _ | a
      · simp [requiredNaN, hA] at hreq
      · unfold stepOf step3Core m3read
        rw [hA]
        dsimp only
        simp only [longPreempt, volumeSpikeAt] at hprev
        unfold adverseLong at hadv
        rw [hp]
        split_ifs <;> simp_all <;> omega
    | m4 =>
      rcases hA : (frameAt fs k).atr with _ | a
      · simp [requiredNaN, hA] at hreq
      · rcases hR : (frameAt fs k).rsi with _ | rs
        · simp [requiredNaN, hA, hR] at hreq
        · unfold stepOf step4Core m4read
          rw [hA, hR]
          dsimp only
          simp only [longPreempt, volumeSpikeAt, hR, leOpt] at hprev
          unfold adverseLong at hadv
          rw [hp]
          split_ifs <;> simp_all <;> omega
    | s2 =>
      rcases hA : (frameAt fs k).atr with _ | a
      · simp [requiredNaN, hA] at hreq
      · rcases hM : (frameAt fs k).macd with _ | m
        · simp [requiredNaN, hA, hM] at hreq
        · rcases hS : (frameAt fs k).macd_signal with _ | ms
          · simp [requiredNaN, hA, hM, hS] at hreq
          · rcases hE : (frameAt fs k).ema with _ | e
            · simp [requiredNaN, hA, hM, hS, hE] at hreq
            · unfold stepOf step2Core s2read
              rw [hA, hM, hS, hE]
              dsimp only
              simp only [longPreempt, crossDownAt, hM, hS, hE, ltOpt] at hprev
              unfold adverseLong at hadv
              rw [hp]
              split_ifs <;> simp_all [ltOpt] <;> try omega
              rename_i hdis
              rcases hdis with (⟨hc, hm⟩ | hlt) | hl2 | hts2
              · exact absurd hm (not_lt.mpr (hprev.1 hc))
              · exact absurd hlt (not_lt.mpr hprev.2)
              · omega
              · exact absurd hts2 (not_lt.mpr hts)
    | m5 =>
      rcases hA : (frameAt fs k).atr with _ | a
      · simp [requiredNaN, hA] at hreq
      · rcases hR : (frameAt fs k).rsi with _ | rs
        · simp [requiredNaN, hA, hR] at hreq
        · rcases hS : (frameAt fs k).sma with _ | sm
          · simp [requiredNaN, hA, hR, hS] at hreq
          · unfold stepOf step5Core m5read
            rw [hA, hR, hS]
            dsimp only
            simp only [longPreempt, hR, hS, ltOpt] at hprev
            unfold adverseLong at hadv
            rw [hp]
            split_ifs <;> simp_all [ltOpt] <;> try omega
            rename_i hdis
            rcases hdis with (h1 | h2) | hl2 | hts2
            · exact absurd h1 (not_lt.mpr hprev.1)
            · exact absurd h2 (not_lt.mpr hprev.2)
            · omega
            · exact absurd hts2 (not_lt.mpr hts)
  · -- (a) short
    cases v with
    | m3 =>
      rcases hA : (frameAt fs k).atr with _ | a
      · simp [requiredNaN, hA] at hreq
      · unfold stepOf step3Core m3read
        rw [hA]
        dsimp only
        simp only [shortPreempt, volumeSpikeAt] at hprev
        unfold adverseShort at hadv
        rw [hp]
        split_ifs <;> simp_all
    | m4 =>
      rcases hA : (frameAt fs k).atr with _ | a
      · simp [requiredNaN, hA] at hreq
      · rcases hR : (frameAt fs k).rsi with _ | rs
        · simp [requiredNaN, hA, hR] at hreq
        · unfold stepOf step4Core m4read
          rw [hA, hR]
          dsimp only
          simp only [shortPreempt, volumeSpikeAt, hR, leOpt] at hprev
          unfold adverseShort at hadv
          rw [hp]
          split_ifs <;> simp_all
    | s2 =>
      rcases hA : (frameAt fs k).atr with _ | a
      · simp [requiredNaN, hA] at hreq
      · rcases hM : (frameAt fs k).macd with _ | m
        · simp [requiredNaN, hA, hM] at hreq
        · rcases hS : (frameAt fs k).macd_signal with _ | ms
          · simp [requiredNaN, hA, hM, hS] at hreq
          · rcases hE : (frameAt fs k).ema with _ | e
            · simp [requiredNaN, hA, hM, hS, hE] at hreq
            · unfold stepOf step2Core s2read
              rw [hA, hM, hS, hE]
              dsimp only
              simp only [shortPreempt, crossUpAt, hM, hS, hE, ltOpt] at hprev
              unfold adverseShort at hadv
              rw [hp]
              split_ifs <;> simp_all [ltOpt]
    | m5 =>
      rcases hA : (frameAt fs k).atr with _ | a
      · simp [requiredNaN, hA] at hreq
      · rcases hR : (frameAt fs k).rsi with _ | rs
        · simp [requiredNaN, hA, hR] at hreq
        · rcases hS : (frameAt fs k).sma with _ | sm
          · simp [requiredNaN, hA, hR, hS] at hreq
          · unfold stepOf step5Core m5read
            rw [hA, hR, hS]
            dsimp only
            simp only [shortPreempt, hR, hS, ltOpt] at hprev
            unfold adverseShort at hadv
            rw [hp]
            split_ifs <;> simp_all [ltOpt]
  · -- (b) short
    cases v with
    | m3 =>
      rcases hA : (frameAt fs k).atr with _ | a
      · simp [requiredNaN, hA] at hreq
      · unfold stepOf step3Core m3read
        rw [hA]
        dsimp only
        simp only [shortPreempt, volumeSpikeAt] at hprev
        unfold adverseShort at hadv
        rw [hp]
        split_ifs <;> simp_all <;> omega
    | m4 =>
      rcases hA : (frameAt fs k).atr with _ | a
      · simp [requiredNaN, hA] at hreq
      · rcases hR : (frameAt fs k).rsi with _ | rs
        · simp [requiredNaN, hA, hR] at hreq
        · unfold stepOf step4Core m4read
          rw [hA, hR]
          dsimp only
          simp only [shortPreempt, volumeSpikeAt, hR, leOpt] at hprev
          unfold adverseShort at hadv
          rw [hp]
          split_ifs <;> simp_all <;> omega
    | s2 =>
      rcases hA : (frameAt fs k).atr with _ | a
      · simp [requiredNaN, hA] at hreq
      · rcases hM : (frameAt fs k).macd with _ | m
        · simp [requiredNaN, hA, hM] at hreq
        · rcases hS : (frameAt fs k).macd_signal with _ | ms
          · simp [requiredNaN, hA, hM, hS] at hreq
          · rcases hE : (frameAt fs k).ema with _ | e
            · simp [requiredNaN, hA, hM, hS, hE] at hreq
            · unfold stepOf step2Core s2read
              rw [hA, hM, hS, hE]
              dsimp only
              simp only [shortPreempt, crossUpAt, hM, hS, hE, ltOpt] at hprev
              unfold adverseShort at hadv
              rw [hp]
              split_ifs <;> simp_all [ltOpt] <;> try omega
              rename_i hdis
              rcases hdis with (⟨hc, hm⟩ | hlt) | hl2 | hts2
              · exact absurd hm (not_lt.mpr (hprev.1 hc))
              · exact absurd hlt (not_lt.mpr hprev.2)
              · omega
              · exact absurd hts2 (not_lt.mpr hts)
    | m5 =>
      rcases hA : (frameAt fs k).atr with _ | a
      · simp [requiredNaN, hA] at hreq
      · rcases hR : (frameAt fs k).rsi with _ | rs
        · simp [requiredNaN, hA, hR] at hreq
        · rcases hS : (frameAt fs k).sma with _ | sm
          · simp [requiredNaN, hA, hR, hS] at hreq
          · unfold stepOf step5Core m5read
            rw [hA, hR, hS]
            dsimp only
            simp only [shortPreempt, hR, hS, ltOpt] at hprev
            unfold adverseShort at hadv
            rw [hp]
            split_ifs <;> simp_all [ltOpt] <;> try omega
            rename_i hdis
            rcases hdis with (h1 | h2) | hl2 | hts2
            · exact absurd h1 (not_lt.mpr hprev.1)
            · exact absurd h2 (not_lt.mpr hprev.2)
            · omega
            · exact absurd hts2 (not_lt.mpr hts)
  · -- (c) the global bound
    induction n with
    | zero => exact fun h => absurd rfl h
    | succ n ih =>
      exact stepOf_nwBound v cfg fs (startIdx v cfg + n)
        (runState v cfg fs n) hone ih

theorem sampleVar_nonneg (xs : List ℚ) : 0 ≤ sampleVar xs := by
  unfold sampleVar
  rcases xs with _ | ⟨x, xs⟩
  · simp
  · apply div_nonneg
    · apply List.sum_nonneg
      intro q hq
      rw [List.mem_map] at hq
      obtain ⟨y, hy, rfl⟩ := hq
      positivity
    · rw [List.length_cons]
      have hn : (0 : ℚ) ≤ (xs.length : ℚ) := Nat.cast_nonneg xs.length
      push_cast
      linarith

/-- C8 (counterexample to the claim as stated): at volumes 10, 10, 10, 20
followed by 21 with `volume_lookback` 4, the spec's strictly-preceding
window declares a spike at bar 4 (threshold 20), while the predicate the
code evaluates — whose window includes bar 4's own volume — does not
(threshold ≈ 22.8): the two windows differ. -/
theorem c8_window_disagrees_with_spec :
    volumeSpikeAt_spec 4 frSpk 4 = true ∧ volumeSpikeAt 4 frSpk 4 = false :=
  ⟨by with_unfolding_all decide, by with_unfolding_all decide⟩

/-- C8 as amended: the spike predicate the volume variants evaluate at bar
`i` is `volume[i] > mean + 1.5 * std` over the pandas label slice
`data.loc[i - volume_lookback : i]`, which is inclusive at both ends — the
`volume_lookback + 1` volumes at indices `i - L, ..., i`, bar `i`'s own
volume included — with std the sample standard deviation (ddof = 1). -/
theorem c8_spike_test_formula (L : Nat) (fs : List Frame) (i : Nat) :
    volumeSpikeAt L fs i = true ↔
      ((sampleMean (volWindow L fs i) : ℚ) : ℝ) +
        3 / 2 * Real.sqrt ((sampleVar (volWindow L fs i) : ℚ) : ℝ) <
        (((frameAt fs i).volume : ℚ) : ℝ) := by
  have hvar : (0 : ℝ) ≤ ((sampleVar (volWindow L fs i) : ℚ) : ℝ) := by
    exact_mod_cast sampleVar_nonneg (volWindow L fs i)
  unfold volumeSpikeAt spikeTest
  rw [Bool.and_eq_true, decide_eq_true_eq, decide_eq_true_eq]
  constructor
  · rintro ⟨h1, h2⟩
    rify at h1 h2
    have hs : Real.sqrt ((sampleVar (volWindow L fs i) : ℚ) : ℝ) <
        2 / 3 * ((((frameAt fs i).volume : ℚ) : ℝ) -
          ((sampleMean (volWindow L fs i) : ℚ) : ℝ)) := by
      rw [Real.sqrt_lt' (by linarith)]
      nlinarith
    linarith
  · intro h
    have hsn := Real.sqrt_nonneg ((sampleVar (volWindow L fs i) : ℚ) : ℝ)
    have hc : (0 : ℝ) < (((frameAt fs i).volume : ℚ) : ℝ) -
        ((sampleMean (volWindow L fs i) : ℚ) : ℝ) := by linarith
    have h3 : 3 / 2 * Real.sqrt ((sampleVar (volWindow L fs i) : ℚ) : ℝ) <
        (((frameAt fs i).volume : ℚ) : ℝ) -
          ((sampleMean (volWindow L fs i) : ℚ) : ℝ) := by linarith
    have h4 : (3 / 2 * Real.sqrt ((sampleVar (volWindow L fs i) : ℚ) : ℝ)) ^ 2 <
        ((((frameAt fs i).volume : ℚ) : ℝ) -
          ((sampleMean (volWindow L fs i) : ℚ) : ℝ)) ^ 2 := by
      apply pow_lt_pow_left₀ h3 (by positivity)
      norm_num
    rw [mul_pow, Real.sq_sqrt hvar] at h4
    constructor
    · rify
      linarith
    · rify
      nlinarith

/-- C9 (counterexample to the claim as stated): on a 2-row input, shorter
than main3's warm-up of 4, the engine raises nothing and returns a
full-length all-HOLD output; the spec-described behavior — failing with
`InsufficientDataError` and producing no output — disagrees.  No
`InsufficientDataError` (or any raise) exists anywhere in the source. -/
theorem c9_no_insufficient_data_error :
    (stratRun .m3 cfgW frShort).2 = [holdRec, holdRec] ∧
    runChecked_spec .m3 cfgW frShort =
      Except.error "InsufficientDataError" :=
  ⟨by with_unfolding_all decide, by with_unfolding_all rfl⟩

/-- C9 as amended: when the input is no longer than the warm-up start
index, the per-bar loop body never runs: the engine returns the input with
every row left at 0/HOLD and the state untouched, and no error of any kind
is raised. -/
theorem c9_short_input_all_hold (v : Variant) (cfg : Config)
    (fs : List Frame) (h : fs.length ≤ startIdx v cfg) :
    stratRun v cfg fs = (initState, List.replicate fs.length holdRec) := by
  unfold stratRun
  dsimp only
  have h1 : fs.length - startIdx v cfg = 0 := by omega
  have h2 : min (startIdx v cfg) fs.length = fs.length := by omega
  rw [h1, h2]
  simp [runCore]

theorem c9_short_input_all_hold_witness :
    frShort.length ≤ startIdx .m3 cfgW ∧
    stratRun .m3 cfgW frShort =
      (initState, List.replicate frShort.length holdRec) :=
  ⟨by decide, c9_short_input_all_hold .m3 cfgW frShort (by decide)⟩

theorem c4_adverse_counter_bound_witness :
    requiredNaN .m5 (frameAt frMono 0) = false ∧
    adverseLong frMono 0 ∧
    stepOf .m5 cfgC frMono 0 ⟨1, 0, 1⟩ = (⟨0, 0, 0⟩, ⟨-1, .CLOSE⟩) :=
  ⟨by with_unfolding_all decide, by with_unfolding_all decide,
    (c4_adverse_counter_bound .m5 cfgC frMono 0 ⟨1, 0, 1⟩).1
      (by decide) (by with_unfolding_all decide)
      (by with_unfolding_all decide) (by with_unfolding_all decide)
      (by decide)⟩

end SoQ
